import Mathlib

/-!
Verification of the Pulse-Forge simulation core.

This file shallowly embeds the game's data model and the operations named by
the specification, translated from the TypeScript source:

* `src/frontend/src/game/types.ts` — data model (Player, Pickup, Hazard,
  MasteryStats, PersistentMastery, RunRewards, GameConfig);
* `src/frontend/src/game/mastery.ts` (first revision, the blueprints one) —
  mastery levels, run XP, blueprint rewards, unlock evaluation;
* `src/unnamed/part_004` — the zustand game store (endRun, purchaseUpgrade,
  addScore, addPerfectPulse, ...);
* `src/frontend/src/game/systems/hazards.ts` (second revision, lines 174-647)
  — hazard collision classification with near-miss / phase-through;
* `src/frontend/src/game/systems/player.ts` — updatePlayer / damagePlayer;
* `src/unnamed/part_006` — pickup system;
* `src/unnamed/part_008` (first part) — the fixed-timestep GameEngine.

Modelling conventions: JS numbers become `ℚ` (all arithmetic in the embedded
code paths is exact on rationals); fields that are only ever written integer
values (hp, damage, score) become `ℤ`; event counters become `ℕ`.
`Math.sqrt(d) < t` is encoded by the equivalent square comparison
`0 < t ∧ d < t*t` (valid since `d` is always a sum of squares).  JS
`Math.random()` and `performance.now()` become explicit oracle arguments.
A JS `Set` kept in insertion order becomes a duplicate-free `List`.
-/

namespace PulseForge

/-- Run phase (types.ts `GameState.phase`). -/
inductive Phase where
  | menu | countdown | playing | upgrade | paused | ended
  deriving DecidableEq, Repr

/-- Kind tag of a `MasteryEvent` (types.ts lines 122-127). -/
inductive EventKind where
  | perfectPulse | nearMissEvent | rhythmStreakEvent | phaseThroughEvent
  | lowHpBonus | categoryBonus | blueprintEarned
  deriving DecidableEq, Repr

/-- A mastery event pushed to `recentEvents` (types.ts `MasteryEvent`); the
`id`/`timestamp` strings, which are derived from the wall clock and never read
back by the embedded code, are omitted. -/
structure MasteryEvent where
  kind : EventKind
  value : Option ℚ
  deriving DecidableEq, Repr

/-- types.ts `MasteryStats`.  `categoriesUsed` is a JS `Set<string>` kept as a
duplicate-free list in insertion order; its `size` is the list length. -/
structure MasteryStats where
  perfectPulses : ℕ
  rhythmStreak : ℕ
  maxRhythmStreak : ℕ
  nearMisses : ℕ
  lowHpSurvivalTime : ℚ
  phaseThroughs : ℕ
  categoriesUsed : List String
  upgradesSynergized : ℕ
  deriving DecidableEq, Repr

/-- types.ts `MasteryProgress`: per-track XP totals. -/
structure MasteryProgress where
  timing : ℚ
  risk : ℚ
  build : ℚ
  deriving DecidableEq, Repr

/-- types.ts `PersistentMastery` (blueprints revision, lines 161-171). -/
structure PersistentMastery where
  progress : MasteryProgress
  totalRuns : ℕ
  highScore : ℚ
  blueprints : ℚ
  unlockedUpgrades : List String
  unlockedCosmetics : List String
  unlockedThemes : List String
  selectedSkin : String
  selectedTheme : String
  deriving DecidableEq, Repr

/-- types.ts `RunRewards`: the blueprint reward breakdown. -/
structure RunRewards where
  baseBlueprints : ℤ
  timingBonus : ℕ
  riskBonus : ℕ
  buildBonus : ℕ
  totalBlueprints : ℤ
  deriving DecidableEq, Repr

/-- The slice of types.ts `Upgrade` read by the embedded store code
(`selectUpgrade` only inspects `id` and `category`). -/
structure Upgrade where
  id : String
  category : String
  deriving DecidableEq, Repr

/-- mastery.ts `MASTERY_THRESHOLDS`: XP needed for each level 1-10. -/
def MASTERY_THRESHOLDS : List ℚ :=
  [0, 100, 250, 500, 800, 1200, 1700, 2300, 3000, 4000]

/-- mastery.ts `getMasteryLevel` (lines 171-176): scan thresholds from the top
(index 9 down to 0) and return `i + 1` for the first index whose threshold is
`≤ xp`; the fall-through return is 1. -/
def getMasteryLevel (xp : ℚ) : ℕ :=
  if 4000 ≤ xp then 10
  else if 3000 ≤ xp then 9
  else if 2300 ≤ xp then 8
  else if 1700 ≤ xp then 7
  else if 1200 ≤ xp then 6
  else if 800 ≤ xp then 5
  else if 500 ≤ xp then 4
  else if 250 ≤ xp then 3
  else if 100 ≤ xp then 2
  else if 0 ≤ xp then 1
  else 1

/-- mastery.ts `MASTERY_XP` (first revision, lines 23-41). -/
structure MasteryXPTable where
  perfectPulse : ℕ := 10
  rhythmStreak3 : ℕ := 25
  rhythmStreak5 : ℕ := 50
  rhythmStreak10 : ℕ := 100
  rhythmStreak20 : ℕ := 200
  nearMiss : ℕ := 15
  phaseThroughHazard : ℕ := 20
  lowHpSurvival10s : ℕ := 30
  lowHpSurvival30s : ℕ := 100
  uniqueCategory : ℕ := 20
  allCategories : ℕ := 150
  synergyCombo : ℕ := 40

/-- The constant `MASTERY_XP` object. -/
def MASTERY_XP : MasteryXPTable := {}

/-- mastery.ts `BLUEPRINT_REWARDS` (lines 46-64). -/
structure BlueprintRewardTable where
  basePerScore : ℚ := 1 / 10
  minBase : ℤ := 5
  timingBonusPerPerfect : ℕ := 2
  timingStreakBonus5 : ℕ := 10
  timingStreakBonus10 : ℕ := 25
  timingStreakBonus20 : ℕ := 50
  riskBonusPerNearMiss : ℕ := 3
  riskLowHpBonus10s : ℕ := 15
  riskLowHpBonus30s : ℕ := 40
  buildBonusPerCategory : ℕ := 5
  buildAllCategoriesBonus : ℕ := 30
  buildSynergyBonus : ℕ := 10

/-- The constant `BLUEPRINT_REWARDS` object. -/
def BLUEPRINT_REWARDS : BlueprintRewardTable := {}

/-- Per-track XP gained in one run, mastery.ts `calculateRunMasteryXP`
(lines 188-213). -/
structure RunXP where
  timing : ℕ
  risk : ℕ
  build : ℕ
  deriving DecidableEq, Repr

/-- mastery.ts `calculateRunMasteryXP` (first revision, lines 188-213):
timing = perfect pulses × 10 plus the streak bonuses at thresholds 3/5/10/20,
each added independently; risk = near-misses × 15 + phase-throughs × 20 plus
low-HP bonuses at 10s/30s; build = unique categories × 20, the all-five bonus,
and synergized picks × 40. -/
def calculateRunMasteryXP (stats : MasteryStats) : RunXP :=
  let timing := stats.perfectPulses * MASTERY_XP.perfectPulse
    + (if 3 ≤ stats.maxRhythmStreak then MASTERY_XP.rhythmStreak3 else 0)
    + (if 5 ≤ stats.maxRhythmStreak then MASTERY_XP.rhythmStreak5 else 0)
    + (if 10 ≤ stats.maxRhythmStreak then MASTERY_XP.rhythmStreak10 else 0)
    + (if 20 ≤ stats.maxRhythmStreak then MASTERY_XP.rhythmStreak20 else 0)
  let risk := stats.nearMisses * MASTERY_XP.nearMiss
    + stats.phaseThroughs * MASTERY_XP.phaseThroughHazard
    + (if 10 ≤ stats.lowHpSurvivalTime then MASTERY_XP.lowHpSurvival10s else 0)
    + (if 30 ≤ stats.lowHpSurvivalTime then MASTERY_XP.lowHpSurvival30s else 0)
  let categoriesCount := stats.categoriesUsed.length
  let build := categoriesCount * MASTERY_XP.uniqueCategory
    + (if 5 ≤ categoriesCount then MASTERY_XP.allCategories else 0)
    + stats.upgradesSynergized * MASTERY_XP.synergyCombo
  { timing := timing, risk := risk, build := build }

/-- mastery.ts `calculateRunBlueprints` (lines 216-247): base is
`Math.max(minBase, Math.floor(score * basePerScore))`, the three mastery
bonuses reuse the XP threshold-stacking policy with their own constants, and
the total is the sum of all four components. -/
def calculateRunBlueprints (score : ℤ) (stats : MasteryStats) : RunRewards :=
  let baseBlueprints : ℤ :=
    max BLUEPRINT_REWARDS.minBase (Int.floor ((score : ℚ) * BLUEPRINT_REWARDS.basePerScore))
  let timingBonus := stats.perfectPulses * BLUEPRINT_REWARDS.timingBonusPerPerfect
    + (if 5 ≤ stats.maxRhythmStreak then BLUEPRINT_REWARDS.timingStreakBonus5 else 0)
    + (if 10 ≤ stats.maxRhythmStreak then BLUEPRINT_REWARDS.timingStreakBonus10 else 0)
    + (if 20 ≤ stats.maxRhythmStreak then BLUEPRINT_REWARDS.timingStreakBonus20 else 0)
  let riskBonus := stats.nearMisses * BLUEPRINT_REWARDS.riskBonusPerNearMiss
    + (if 10 ≤ stats.lowHpSurvivalTime then BLUEPRINT_REWARDS.riskLowHpBonus10s else 0)
    + (if 30 ≤ stats.lowHpSurvivalTime then BLUEPRINT_REWARDS.riskLowHpBonus30s else 0)
  let categoriesCount := stats.categoriesUsed.length
  let buildBonus := categoriesCount * BLUEPRINT_REWARDS.buildBonusPerCategory
    + (if 5 ≤ categoriesCount then BLUEPRINT_REWARDS.buildAllCategoriesBonus else 0)
    + stats.upgradesSynergized * BLUEPRINT_REWARDS.buildSynergyBonus
  { baseBlueprints := baseBlueprints
    timingBonus := timingBonus
    riskBonus := riskBonus
    buildBonus := buildBonus
    totalBlueprints := baseBlueprints + (timingBonus : ℤ) + riskBonus + buildBonus }

/-- The ordered unlock rule table of mastery.ts `checkMasteryUnlocks`
(lines 287-346): each sequential `if (level-condition && !includes(id))
newUnlocks.push(id)` becomes one `(condition, id)` row, in source order. -/
def unlockRules (timingLevel riskLevel buildLevel totalLevel : ℕ) :
    List (Bool × String) :=
  [ (decide (2 ≤ timingLevel), "tempo_surge"),
    (decide (3 ≤ timingLevel), "pulse_memory"),
    (decide (4 ≤ timingLevel), "perfect_flow"),
    (decide (5 ≤ timingLevel), "streak_shield"),
    (decide (6 ≤ timingLevel), "rhythm_master"),
    (decide (2 ≤ riskLevel), "close_call"),
    (decide (3 ≤ riskLevel), "adrenaline_rush"),
    (decide (4 ≤ riskLevel), "danger_zone"),
    (decide (5 ≤ riskLevel), "last_stand"),
    (decide (6 ≤ riskLevel), "death_defier"),
    (decide (2 ≤ buildLevel), "versatile"),
    (decide (4 ≤ buildLevel), "synergy_core"),
    (decide (12 ≤ totalLevel), "pulse_virtuoso"),
    (decide (18 ≤ totalLevel), "forge_master") ]

/-- mastery.ts `checkMasteryUnlocks` (lines 287-346): compute the three track
levels, then collect (in source order) every rule id whose level condition
holds and that is not already in `unlockedUpgrades`. -/
def checkMasteryUnlocks (mastery : PersistentMastery) : List String :=
  let timingLevel := getMasteryLevel mastery.progress.timing
  let riskLevel := getMasteryLevel mastery.progress.risk
  let buildLevel := getMasteryLevel mastery.progress.build
  let totalLevel := timingLevel + riskLevel + buildLevel
  ((unlockRules timingLevel riskLevel buildLevel totalLevel).filter
    (fun rule => rule.1 && !(mastery.unlockedUpgrades.contains rule.2))).map
    Prod.snd

/-- JS `array.slice(-n)`: the last `n` elements (all of them if fewer). -/
def takeLast (l : List α) (n : ℕ) : List α := l.drop (l.length - n)

/-- The zustand game store state (part_004 `GameStore`): the `GameState`
fields plus persistent mastery, unlock and reward results.  `multiplier` is
the untyped field written by `setMultiplier` (`as any`); it is absent from
`INITIAL_STATE`, hence an `Option`. -/
structure Store where
  phase : Phase
  timer : ℚ
  maxTime : ℚ
  score : ℤ
  shards : ℤ
  perfectPulses : ℕ
  distance : ℚ
  difficulty : ℚ
  upgradeChoices : List Upgrade
  selectedUpgrades : List Upgrade
  lastUpgradeTime : ℚ
  upgradeInterval : ℚ
  masteryStats : MasteryStats
  recentEvents : List MasteryEvent
  persistentMastery : PersistentMastery
  newUnlocks : List String
  runRewards : Option RunRewards
  multiplier : Option ℚ
  deriving DecidableEq, Repr

/-- part_004 `createInitialMasteryStats`. -/
def createInitialMasteryStats : MasteryStats :=
  { perfectPulses := 0, rhythmStreak := 0, maxRhythmStreak := 0, nearMisses := 0
    lowHpSurvivalTime := 0, phaseThroughs := 0, categoriesUsed := [], upgradesSynergized := 0 }

/-- part_004 `DEFAULT_PERSISTENT`. -/
def DEFAULT_PERSISTENT : PersistentMastery :=
  { progress := { timing := 0, risk := 0, build := 0 }
    totalRuns := 0, highScore := 0, blueprints := 0
    unlockedUpgrades := [], unlockedCosmetics := ["default"], unlockedThemes := ["default"]
    selectedSkin := "default", selectedTheme := "default" }

/-- part_004 `INITIAL_STATE` (plus the persistent fields of the store). -/
def INITIAL_STATE : Store :=
  { phase := .menu, timer := 90, maxTime := 90, score := 0, shards := 0
    perfectPulses := 0, distance := 0, difficulty := 1
    upgradeChoices := [], selectedUpgrades := [], lastUpgradeTime := 0
    upgradeInterval := 15, masteryStats := createInitialMasteryStats
    recentEvents := [], persistentMastery := DEFAULT_PERSISTENT
    newUnlocks := [], runRewards := none, multiplier := none }

/-- `[...state.recentEvents.slice(-10), newEvent]`. -/
def pushEvent (events : List MasteryEvent) (e : MasteryEvent) : List MasteryEvent :=
  takeLast events 10 ++ [e]

/-- part_004 `setPhase`. -/
def setPhase (s : Store) (phase : Phase) : Store := { s with phase := phase }

/-- part_004 `setTimer`. -/
def setTimer (s : Store) (timer : ℚ) : Store := { s with timer := timer }

/-- part_004 `setDifficulty`. -/
def setDifficulty (s : Store) (difficulty : ℚ) : Store := { s with difficulty := difficulty }

/-- part_004 `addScore` (line 113): `score + Math.floor(points)`. -/
def addScore (s : Store) (points : ℚ) : Store :=
  { s with score := s.score + Int.floor points }

/-- part_004 `addShards`. -/
def addShards (s : Store) (amount : ℤ) : Store := { s with shards := s.shards + amount }

/-- part_004 `addDistance`. -/
def addDistance (s : Store) (dist : ℚ) : Store := { s with distance := s.distance + dist }

/-- part_004 `addPerfectPulse` (lines 117-133): bumps both the HUD counter and
the mastery accumulator and pushes one `perfect_pulse` event. -/
def addPerfectPulse (s : Store) : Store :=
  { s with
    perfectPulses := s.perfectPulses + 1
    masteryStats := { s.masteryStats with perfectPulses := s.masteryStats.perfectPulses + 1 }
    recentEvents := pushEvent s.recentEvents { kind := .perfectPulse, value := some 1 } }

/-- part_004 `addNearMiss` (lines 135-150). -/
def addNearMiss (s : Store) : Store :=
  { s with
    masteryStats := { s.masteryStats with nearMisses := s.masteryStats.nearMisses + 1 }
    recentEvents := pushEvent s.recentEvents { kind := .nearMissEvent, value := some 1 } }

/-- part_004 `addPhaseThrough` (lines 152-167). -/
def addPhaseThrough (s : Store) : Store :=
  { s with
    masteryStats := { s.masteryStats with phaseThroughs := s.masteryStats.phaseThroughs + 1 }
    recentEvents := pushEvent s.recentEvents { kind := .phaseThroughEvent, value := some 1 } }

/-- part_004 `updateRhythmStreak` (lines 169-194): good timing increments the
streak (tracking the max) and emits an event at the 3/5/10/20 milestones; bad
timing resets the streak to zero. -/
def updateRhythmStreak (s : Store) (isGoodTiming : Bool) : Store :=
  if isGoodTiming then
    let streak := s.masteryStats.rhythmStreak + 1
    let newStats := { s.masteryStats with
      rhythmStreak := streak
      maxRhythmStreak := max s.masteryStats.maxRhythmStreak streak }
    let streakEvent : MasteryEvent := { kind := .rhythmStreakEvent, value := some (streak : ℚ) }
    if streak = 3 ∨ streak = 5 ∨ streak = 10 ∨ streak = 20 then
      { s with masteryStats := newStats,
               recentEvents := pushEvent s.recentEvents streakEvent }
    else
      { s with masteryStats := newStats }
  else
    { s with masteryStats := { s.masteryStats with rhythmStreak := 0 } }

/-- part_004 `addLowHpTime` (lines 196-217). -/
def addLowHpTime (s : Store) (time : ℚ) : Store :=
  let prev := s.masteryStats.lowHpSurvivalTime
  let curr := prev + time
  let newStats := { s.masteryStats with lowHpSurvivalTime := curr }
  let bonusEvent : MasteryEvent := { kind := .lowHpBonus, value := some (Int.floor curr : ℚ) }
  if (prev < 10 ∧ 10 ≤ curr) ∨ (prev < 30 ∧ 30 ≤ curr) then
    { s with masteryStats := newStats,
             recentEvents := pushEvent s.recentEvents bonusEvent }
  else
    { s with masteryStats := newStats }

/-- JS `new Set([...old, x])` on an insertion-ordered duplicate-free list. -/
def setInsert (l : List String) (x : String) : List String :=
  if l.contains x then l else l ++ [x]

/-- part_004 `selectUpgrade` (lines 244-277): record the upgrade's category,
count a synergy if the category repeats, emit the all-five-categories event,
and return to the playing phase. -/
def selectUpgrade (s : Store) (upgrade : Upgrade) : Store :=
  let categoriesUsed := setInsert s.masteryStats.categoriesUsed upgrade.category
  let sameCategoryCount :=
    (s.selectedUpgrades.filter (fun u => u.category = upgrade.category)).length
  let newStats := { s.masteryStats with
    categoriesUsed := categoriesUsed
    upgradesSynergized := s.masteryStats.upgradesSynergized
      + (if 0 < sameCategoryCount then 1 else 0) }
  let base := { s with
    phase := Phase.playing
    selectedUpgrades := s.selectedUpgrades ++ [upgrade]
    upgradeChoices := ([] : List Upgrade)
    masteryStats := newStats }
  let bonusEvent : MasteryEvent := { kind := .categoryBonus, value := some 5 }
  if categoriesUsed.length = 5 then
    { base with recentEvents := pushEvent s.recentEvents bonusEvent }
  else
    base

/-- part_004 `triggerUpgradeChoice` (lines 227-242).  The three offered
choices are drawn by a random shuffle of the unlock-filtered catalog; the
shuffle and catalog filter are modelled as an oracle argument `choices`. -/
def triggerUpgradeChoice (s : Store) (choices : List Upgrade) : Store :=
  { s with
    phase := Phase.upgrade
    upgradeChoices := choices
    lastUpgradeTime := s.maxTime - s.timer }

/-- part_004 `endRun` (lines 296-340): reduce the run's mastery stats to XP
and blueprints, add them to the persisted totals, bump `totalRuns`, update
`highScore` by max, evaluate unlocks against the post-XP state, append them,
persist, and publish unlocks/rewards.  The analytics calls are an external
fire-and-forget sink with no store effect; `saveMasteryData` persists exactly
the `persistentMastery` value stored here. -/
def endRun (s : Store) : Store :=
  let xpGained := calculateRunMasteryXP s.masteryStats
  let rewards := calculateRunBlueprints s.score s.masteryStats
  let postXP : PersistentMastery := { s.persistentMastery with
    progress := { timing := s.persistentMastery.progress.timing + (xpGained.timing : ℚ)
                  risk := s.persistentMastery.progress.risk + (xpGained.risk : ℚ)
                  build := s.persistentMastery.progress.build + (xpGained.build : ℚ) }
    totalRuns := s.persistentMastery.totalRuns + 1
    highScore := max s.persistentMastery.highScore (s.score : ℚ)
    blueprints := s.persistentMastery.blueprints + (rewards.totalBlueprints : ℚ) }
  let unlocks := checkMasteryUnlocks postXP
  let newMastery := { postXP with unlockedUpgrades := postXP.unlockedUpgrades ++ unlocks }
  { s with persistentMastery := newMastery, newUnlocks := unlocks, runRewards := some rewards }

/-- part_004 `purchaseUpgrade` (lines 349-361): refuse when the balance is
short or the id is already unlocked; otherwise spend the cost and append the
id.  Returns the JS function's boolean alongside the updated store. -/
def purchaseUpgrade (s : Store) (upgradeId : String) (cost : ℚ) : Bool × Store :=
  if s.persistentMastery.blueprints < cost then (false, s)
  else if s.persistentMastery.unlockedUpgrades.contains upgradeId then (false, s)
  else
    (true,
     { s with persistentMastery := { s.persistentMastery with
         blueprints := s.persistentMastery.blueprints - cost
         unlockedUpgrades := s.persistentMastery.unlockedUpgrades ++ [upgradeId] } })

/-- Every id returned by `checkMasteryUnlocks` passes the
`!unlockedUpgrades.includes(id)` guard of its rule. -/
lemma checkMasteryUnlocks_not_mem (m : PersistentMastery) (id : String)
    (h : id ∈ checkMasteryUnlocks m) : id ∉ m.unlockedUpgrades := by
  simp only [checkMasteryUnlocks, List.mem_map, List.mem_filter] at h
  obtain ⟨rule, ⟨_, hguard⟩, hsnd⟩ := h
  subst hsnd
  simp only [Bool.and_eq_true, Bool.not_eq_true'] at hguard
  simpa using hguard.2

/-- The blueprint total of a run is at least the 5-blueprint floor. -/
lemma totalBlueprints_nonneg (score : ℤ) (stats : MasteryStats) :
    0 ≤ (calculateRunBlueprints score stats).totalBlueprints := by
  unfold calculateRunBlueprints
  have h5 : (5 : ℤ) ≤ max BLUEPRINT_REWARDS.minBase
      (Int.floor ((score : ℚ) * BLUEPRINT_REWARDS.basePerScore)) := le_max_left _ _
  positivity

/-- Concrete per-run stats used to instantiate theorems: 10 perfect pulses and
a best rhythm streak of 12. -/
def witnessStats : MasteryStats :=
  { createInitialMasteryStats with perfectPulses := 10, maxRhythmStreak := 12 }

/-- Concrete store at the end of a run: score 10, the stats above, and a
persisted save holding 100 blueprints and no unlocked upgrades. -/
def witnessStore : Store :=
  { INITIAL_STATE with
    phase := Phase.ended
    score := 10
    masteryStats := witnessStats
    persistentMastery := { DEFAULT_PERSISTENT with blueprints := 100 } }

/-- C1: after `endRun`, the persisted `totalRuns` is exactly one greater, the
persisted `highScore` is the max of the previous high score and this run's
score, and no returned new unlock was already in `unlockedUpgrades` before
the call. -/
theorem endRun_run_end_ordering (s : Store) :
    (endRun s).persistentMastery.totalRuns = s.persistentMastery.totalRuns + 1
    ∧ (endRun s).persistentMastery.highScore
        = max s.persistentMastery.highScore (s.score : ℚ)
    ∧ ∀ id ∈ (endRun s).newUnlocks, id ∉ s.persistentMastery.unlockedUpgrades := by
  refine ⟨rfl, rfl, ?_⟩
  intro id hid hmem
  simp only [endRun] at hid
  exact checkMasteryUnlocks_not_mem _ id hid hmem

/-- Witness for C1: on the concrete end-of-run store, `tempo_surge` is newly
unlocked and was not previously unlocked. -/
theorem endRun_run_end_ordering_witness :
    "tempo_surge" ∉ witnessStore.persistentMastery.unlockedUpgrades :=
  (endRun_run_end_ordering witnessStore).2.2 "tempo_surge" (by
    norm_num [endRun, witnessStore, witnessStats, INITIAL_STATE, DEFAULT_PERSISTENT,
      createInitialMasteryStats, calculateRunMasteryXP, calculateRunBlueprints,
      checkMasteryUnlocks, unlockRules, getMasteryLevel, MASTERY_XP, BLUEPRINT_REWARDS])

/-- C2 counterexample: `purchaseUpgrade` is an operation that writes
`PersistentMastery` yet lowers the persisted blueprint balance (here from 100
to 50), so the blueprint balance is not monotonically non-decreasing. -/
theorem blueprint_monotonicity_cex :
    (purchaseUpgrade witnessStore "tempo_surge" 50).2.persistentMastery.blueprints
      < witnessStore.persistentMastery.blueprints := by
  norm_num [purchaseUpgrade, witnessStore, INITIAL_STATE, DEFAULT_PERSISTENT]

/-- C2 (amended): the three per-track XP totals never decrease under `endRun`
or `purchaseUpgrade`, and the blueprint balance never decreases under
`endRun`; `purchaseUpgrade` leaves XP untouched and, when it succeeds, lowers
the balance by exactly the purchase cost (and otherwise changes nothing). -/
theorem mastery_xp_monotone_blueprints_spent_on_purchase
    (s : Store) (id : String) (cost : ℚ) :
    (s.persistentMastery.progress.timing ≤ (endRun s).persistentMastery.progress.timing
      ∧ s.persistentMastery.progress.risk ≤ (endRun s).persistentMastery.progress.risk
      ∧ s.persistentMastery.progress.build ≤ (endRun s).persistentMastery.progress.build
      ∧ s.persistentMastery.blueprints ≤ (endRun s).persistentMastery.blueprints)
    ∧ ((purchaseUpgrade s id cost).2.persistentMastery.progress = s.persistentMastery.progress
      ∧ ((purchaseUpgrade s id cost).1 = true →
          (purchaseUpgrade s id cost).2.persistentMastery.blueprints
            = s.persistentMastery.blueprints - cost)
      ∧ ((purchaseUpgrade s id cost).1 = false → (purchaseUpgrade s id cost).2 = s)) := by
  constructor
  · refine ⟨?_, ?_, ?_, ?_⟩ <;> simp only [endRun]
    · exact le_add_of_nonneg_right (by positivity)
    · exact le_add_of_nonneg_right (by positivity)
    · exact le_add_of_nonneg_right (by positivity)
    · exact le_add_of_nonneg_right
        (by exact_mod_cast totalBlueprints_nonneg s.score s.masteryStats)
  · unfold purchaseUpgrade
    split_ifs <;> simp

/-- Witness for C2 (amended): buying upgrade `x` for 50 from the concrete
store leaves exactly 50 of its 100 blueprints. -/
theorem mastery_xp_monotone_blueprints_spent_on_purchase_witness :
    (purchaseUpgrade witnessStore "x" 50).2.persistentMastery.blueprints
      = witnessStore.persistentMastery.blueprints - 50 :=
  (mastery_xp_monotone_blueprints_spent_on_purchase witnessStore "x" 50).2.2.1 (by decide)

/-- C6: the rhythm-streak bonuses of `calculateRunMasteryXP` stack
cumulatively: at `maxRhythmStreak = 12` the streak component of timing XP is
25 + 50 + 100 = 175 (not just the highest bonus), and at 20 or more all four
bonuses add to 375. -/
theorem calculateRunMasteryXP_threshold_stacking (stats : MasteryStats) :
    (stats.maxRhythmStreak = 12 →
      (calculateRunMasteryXP stats).timing = stats.perfectPulses * 10 + 175)
    ∧ (20 ≤ stats.maxRhythmStreak →
      (calculateRunMasteryXP stats).timing = stats.perfectPulses * 10 + 375)
    ∧ MASTERY_XP.rhythmStreak3 + MASTERY_XP.rhythmStreak5 + MASTERY_XP.rhythmStreak10 = 175 := by
  refine ⟨fun h => ?_, fun h => ?_, rfl⟩
  · simp [calculateRunMasteryXP, MASTERY_XP, h]
  · have h3 : 3 ≤ stats.maxRhythmStreak := by omega
    have h5 : 5 ≤ stats.maxRhythmStreak := by omega
    have h10 : 10 ≤ stats.maxRhythmStreak := by omega
    simp only [calculateRunMasteryXP, MASTERY_XP, if_pos h3, if_pos h5, if_pos h10, if_pos h]

/-- Witness for C6: the concrete stats (10 perfect pulses, streak 12) yield
timing XP 10·10 + 175. -/
theorem calculateRunMasteryXP_threshold_stacking_witness :
    (calculateRunMasteryXP witnessStats).timing = witnessStats.perfectPulses * 10 + 175 :=
  (calculateRunMasteryXP_threshold_stacking witnessStats).1 rfl

/-- C7: for every non-negative score, the base component of the blueprint
reward is `max(minBase, floor(score × basePerScore))`; in particular at
score 10 (with basePerScore 0.1, minBase 5) the base is the floor value 5. -/
theorem calculateRunBlueprints_base_floor (score : ℤ) (stats : MasteryStats)
    (_h : 0 ≤ score) :
    (calculateRunBlueprints score stats).baseBlueprints
      = max BLUEPRINT_REWARDS.minBase
          (Int.floor ((score : ℚ) * BLUEPRINT_REWARDS.basePerScore))
    ∧ (calculateRunBlueprints 10 stats).baseBlueprints = 5 := by
  refine ⟨rfl, ?_⟩
  show max BLUEPRINT_REWARDS.minBase
      (Int.floor (((10 : ℤ) : ℚ) * BLUEPRINT_REWARDS.basePerScore)) = 5
  norm_num [BLUEPRINT_REWARDS]

/-- Witness for C7: at the concrete score 10 the base blueprints equal 5. -/
theorem calculateRunBlueprints_base_floor_witness :
    (calculateRunBlueprints 10 witnessStats).baseBlueprints = 5 :=
  (calculateRunBlueprints_base_floor 10 witnessStats (by decide)).2

/-- types.ts `Vector2`. -/
structure Vec2 where
  x : ℚ
  y : ℚ
  deriving DecidableEq, Repr

/-- types.ts `GameConfig`. -/
structure GameConfig where
  screenWidth : ℚ
  screenHeight : ℚ
  worldWidth : ℚ
  worldHeight : ℚ
  targetFPS : ℚ
  fixedDeltaTime : ℚ
  deriving DecidableEq, Repr

/-- part_008 `DEFAULT_CONFIG`. -/
def DEFAULT_CONFIG : GameConfig :=
  { screenWidth := 390, screenHeight := 844, worldWidth := 390, worldHeight := 2000
    targetFPS := 60, fixedDeltaTime := 1000 / 60 }

/-- types.ts `Player`.  `hp`/`maxHp` are `ℤ`: every write in the source is by
an integer amount (creation 3/3, hazard damage 1, cell heal 1, upgrade +1).
The `lowHpTime`/`lastPulseTime` scalars of the type are never written or read
by the embedded code (the engine keeps its own `lastPulseTime`), so they are
omitted. -/
structure Player where
  id : String
  position : Vec2
  velocity : Vec2
  radius : ℚ
  active : Bool
  charge : ℚ
  maxCharge : ℚ
  chargeSpeed : ℚ
  isCharging : Bool
  phaseActive : Bool
  phaseTimer : ℚ
  phaseDuration : ℚ
  hp : ℤ
  maxHp : ℤ
  multiplier : ℚ
  heat : ℚ
  dashPower : ℚ
  magnetRange : ℚ
  invincible : Bool
  invincibleTimer : ℚ
  deriving DecidableEq, Repr

/-- types.ts pickup kinds. -/
inductive PickupType where
  | shard | cell | spark
  deriving DecidableEq, Repr

/-- types.ts `Pickup`.  `value` is `ℤ`: the source only ever assigns the
integers 10/1/1. -/
structure Pickup where
  id : String
  position : Vec2
  velocity : Vec2
  radius : ℚ
  active : Bool
  type : PickupType
  value : ℤ
  magnetized : Bool
  deriving DecidableEq, Repr

/-- types.ts hazard kinds. -/
inductive HazardType where
  | wall | drone | laser
  deriving DecidableEq, Repr

/-- types.ts `Hazard`.  The optional `nearMissChecked?: boolean` is a plain
`Bool`: the source only ever tests its truthiness, on which an absent field
reads as `false`. -/
structure Hazard where
  id : String
  position : Vec2
  velocity : Vec2
  radius : ℚ
  active : Bool
  type : HazardType
  phaseable : Bool
  damage : ℤ
  width : Option ℚ
  height : Option ℚ
  angle : Option ℚ
  length : Option ℚ
  telegraphed : Option Bool
  telegraphTimer : Option ℚ
  speed : Option ℚ
  nearMissChecked : Bool
  deriving DecidableEq, Repr

/-- player.ts `createPlayer` (lines 7-30). -/
def createPlayer (config : GameConfig) (playerId : String) : Player :=
  { id := playerId
    position := { x := config.screenWidth / 2, y := 100 }
    velocity := { x := 0, y := 0 }
    radius := 20, active := true
    charge := 0, maxCharge := 1, chargeSpeed := 3 / 2, isCharging := false
    phaseActive := false, phaseTimer := 0, phaseDuration := 4 / 5
    hp := 3, maxHp := 3, multiplier := 1, heat := 0
    dashPower := 400, magnetRange := 150
    invincible := false, invincibleTimer := 0 }

/-- player.ts `damagePlayer` (lines 73-83): a no-op while invincible;
otherwise subtract the damage, grant 1.5 s of invincibility, and signal
`store.setPhase('ended')` when hp drops to 0 or below. -/
def damagePlayer (p : Player) (damage : ℤ) (phase : Phase) : Player × Phase :=
  if p.invincible then (p, phase)
  else
    let p' := { p with hp := p.hp - damage, invincible := true, invincibleTimer := 3 / 2 }
    (p', if p'.hp ≤ 0 then Phase.ended else phase)

/-- hazards.ts `NEAR_MISS_THRESHOLD` (line 217). -/
def NEAR_MISS_THRESHOLD : ℚ := 25

/-- `Math.sqrt d2 < t` for a sum of squares `d2`: equivalent to
`0 < t ∧ d2 < t²`. -/
def sqrtLt (d2 t : ℚ) : Bool := decide (0 < t ∧ d2 < t * t)

/-- JS truthiness of an optional numeric field (`hazard.width && ...`):
present and non-zero. -/
def truthy (o : Option ℚ) : Bool :=
  match o with
  | none => false
  | some v => decide (v ≠ 0)

/-- JS `value || default` on an optional numeric field (`hazard.height || 20`). -/
def orDefault (o : Option ℚ) (d : ℚ) : ℚ :=
  match o with
  | none => d
  | some v => if v = 0 then d else v

/-- The closest-point-on-rectangle squared distance of the wall branch of
`checkHazardCollisions` (hazards.ts lines 511-516). -/
def wallDistSq (p : Player) (hx hy w hh : ℚ) : ℚ :=
  let closestX := max hx (min p.position.x (hx + w))
  let closestY := max hy (min p.position.y (hy + hh))
  (p.position.x - closestX) * (p.position.x - closestX)
    + (p.position.y - closestY) * (p.position.y - closestY)

/-- Result of processing one hazard inside `checkHazardCollisions`. -/
structure HazardStep where
  player : Player
  phase : Phase
  hazard : Hazard
  nearMisses : ℕ
  phaseThroughs : ℕ
  deriving DecidableEq, Repr

/-- Tail of the per-hazard body of `checkHazardCollisions` (hazards.ts lines
627-632): record the hazard's updated flag, then
`if (wasPhased) return; if (collision) damagePlayer(...)`. -/
def finishHazard (p : Player) (phase : Phase) (h : Hazard)
    (collision checked : Bool) (nm pt : ℕ) : HazardStep :=
  let wasPhased := h.phaseable && p.phaseActive
  let h' := { h with nearMissChecked := checked }
  if wasPhased then ⟨p, phase, h', nm, pt⟩
  else if collision then
    ⟨(damagePlayer p h.damage phase).1, (damagePlayer p h.damage phase).2, h', nm, pt⟩
  else ⟨p, phase, h', nm, pt⟩

/-- Outcome of the per-type classification inside `checkHazardCollisions`:
the final `collision` local, the hazard's updated `nearMissChecked` flag, and
this hazard's near-miss / phase-through contributions. -/
structure HazardClass where
  collision : Bool
  checked : Bool
  nearMisses : ℕ
  phaseThroughs : ℕ
  deriving DecidableEq, Repr

/-- Wall case of `checkHazardCollisions` (hazards.ts lines 509-548):
closest-point rectangle distance, near-miss after passage, phase-through
detection while phased. -/
def classifyWall (p : Player) (h : Hazard) : HazardClass :=
  let wasPhased := h.phaseable && p.phaseActive
  if truthy h.width && truthy h.height then
    let w := h.width.getD 0
    let hh := h.height.getD 0
    let d2 := wallDistSq p h.position.x h.position.y w hh
    let collision := sqrtLt d2 p.radius
    let step1 : Bool × ℕ :=
      if !h.nearMissChecked && !collision && sqrtLt d2 (p.radius + NEAR_MISS_THRESHOLD) then
        let playerBottom := p.position.y - p.radius
        let hazardTop := h.position.y + orDefault h.height 20
        if hazardTop < playerBottom then
          (true, if !wasPhased then 1 else 0)
        else (h.nearMissChecked, 0)
      else (h.nearMissChecked, 0)
    let step2 : Bool × ℕ :=
      if wasPhased && !step1.1 then
        let playerCenter := p.position.y
        let hazardCenter := h.position.y + orDefault h.height 20 / 2
        if |playerCenter - hazardCenter| < p.radius + orDefault h.height 20 / 2 + 10
            ∧ h.position.x - p.radius < p.position.x
            ∧ p.position.x < h.position.x + orDefault h.width 60 + p.radius then
          (true, 1)
        else (step1.1, 0)
      else (step1.1, 0)
    ⟨collision, step2.1, step1.2, step2.2⟩
  else ⟨false, h.nearMissChecked, 0, 0⟩

/-- Drone case of `checkHazardCollisions` (hazards.ts lines 550-575): inert
while telegraphing; center-distance collision, near-miss within the
threshold, phase-through cancelling the collision. -/
def classifyDrone (p : Player) (h : Hazard) : HazardClass :=
  let wasPhased := h.phaseable && p.phaseActive
  if !(h.telegraphed.getD false) then
    let dx := h.position.x - p.position.x
    let dy := h.position.y - p.position.y
    let d2 := dx * dx + dy * dy
    let collision0 := sqrtLt d2 (p.radius + h.radius)
    let step1 : Bool × ℕ :=
      if !collision0 && sqrtLt d2 (p.radius + h.radius + NEAR_MISS_THRESHOLD) then
        if !h.nearMissChecked then
          (true, if !wasPhased then 1 else 0)
        else (h.nearMissChecked, 0)
      else (h.nearMissChecked, 0)
    if wasPhased && collision0 && !step1.1 then ⟨false, true, step1.2, 1⟩
    else ⟨collision0, step1.1, step1.2, 0⟩
  else ⟨false, h.nearMissChecked, 0, 0⟩

/-- Laser case of `checkHazardCollisions` (hazards.ts lines 577-624): active
only while the reused sign-encoded timer is negative; AABB collision,
phase-through cancelling the collision, then edge-proximity near-miss gated
on the timer being past `-0.1`. -/
def classifyLaser (p : Player) (h : Hazard) : HazardClass :=
  let wasPhased := h.phaseable && p.phaseActive
  match h.telegraphTimer with
  | none => ⟨false, h.nearMissChecked, 0, 0⟩
  | some t =>
    if t < 0 ∧ (truthy h.width && truthy h.height) = true then
      let w := h.width.getD 0
      let hh := h.height.getD 0
      let laserLeft := h.position.x
      let laserRight := h.position.x + w
      let laserTop := h.position.y - hh / 2
      let laserBottom := h.position.y + hh / 2
      let playerLeft := p.position.x - p.radius
      let playerRight := p.position.x + p.radius
      let playerTop := p.position.y - p.radius
      let playerBottom := p.position.y + p.radius
      let collision0 : Bool := decide (laserLeft < playerRight ∧ playerLeft < laserRight
        ∧ laserTop < playerBottom ∧ playerTop < laserBottom)
      let step1 : Bool × ℕ × Bool :=
        if wasPhased && collision0 && !h.nearMissChecked then (true, 1, false)
        else (h.nearMissChecked, 0, collision0)
      let step2 : Bool × ℕ :=
        if !step1.2.2 && !step1.1 then
          let horizontalDist := min |playerRight - laserLeft| |playerLeft - laserRight|
          let verticalDist := min |playerBottom - laserTop| |playerTop - laserBottom|
          if horizontalDist < NEAR_MISS_THRESHOLD ∨ verticalDist < NEAR_MISS_THRESHOLD then
            if -(1 / 10) < t then (true, 1) else (step1.1, 0)
          else (step1.1, 0)
        else (step1.1, 0)
      ⟨step1.2.2, step2.1, step2.2, step1.2.1⟩
    else ⟨false, h.nearMissChecked, 0, 0⟩

/-- The per-hazard body of hazards.ts `checkHazardCollisions` (second
revision, lines 500-633): classify the pass per hazard type, update the
hazard's `nearMissChecked` flag, and apply damage unless the pass was
phase-exempt. -/
def processHazard (p : Player) (phase : Phase) (h : Hazard) : HazardStep :=
  if !h.active then ⟨p, phase, h, 0, 0⟩ else
  let c := match h.type with
    | HazardType.wall => classifyWall p h
    | HazardType.drone => classifyDrone p h
    | HazardType.laser => classifyLaser p h
  finishHazard p phase h c.collision c.checked c.nearMisses c.phaseThroughs

/-- Aggregate result of hazards.ts `CollisionResult` (lines 486-490). -/
structure CollisionResult where
  collisions : Bool
  nearMisses : ℕ
  phaseThroughs : ℕ
  deriving DecidableEq, Repr

/-- Accumulated state of the `hazards.forEach` loop. -/
structure HazardFold where
  hazards : List Hazard
  player : Player
  phase : Phase
  nearMisses : ℕ
  phaseThroughs : ℕ
  deriving DecidableEq, Repr

/-- The `hazards.forEach` loop of `checkHazardCollisions`: hazards are
processed in order, damage threads through the player, and the per-hazard
near-miss / phase-through contributions are summed. -/
def runHazardList (p : Player) (phase : Phase) : List Hazard → HazardFold
  | [] => ⟨[], p, phase, 0, 0⟩
  | h :: rest =>
    let st := processHazard p phase h
    let acc := runHazardList st.player st.phase rest
    ⟨st.hazard :: acc.hazards, acc.player, acc.phase,
      st.nearMisses + acc.nearMisses, st.phaseThroughs + acc.phaseThroughs⟩

/-- Full output of `checkHazardCollisions`: updated hazards, player and run
phase plus the returned `CollisionResult`. -/
structure HazardsOut where
  hazards : List Hazard
  player : Player
  phase : Phase
  result : CollisionResult
  deriving DecidableEq, Repr

/-- hazards.ts `checkHazardCollisions` (second revision, lines 492-636):
run the per-hazard loop, then return
`{ collisions: false, nearMisses, phaseThroughs }`. -/
def checkHazardCollisions (hazards : List Hazard) (p : Player) (phase : Phase) :
    HazardsOut :=
  let fold := runHazardList p phase hazards
  { hazards := fold.hazards, player := fold.player, phase := fold.phase
    result := { collisions := false, nearMisses := fold.nearMisses
                phaseThroughs := fold.phaseThroughs } }

/-- One hazard's view of a whole sequence of `checkHazardCollisions` calls:
the player state (and store phase) at each call is arbitrary, and the
hazard's own contributions to the returned counts are summed. -/
structure HazardTrace where
  hazard : Hazard
  nearMisses : ℕ
  phaseThroughs : ℕ
  deriving DecidableEq, Repr

/-- Fold a hazard through the per-hazard body of `checkHazardCollisions`
once per call of an arbitrary call sequence. -/
def hazardLifetime (h : Hazard) : List (Player × Phase) → HazardTrace
  | [] => ⟨h, 0, 0⟩
  | (p, phase) :: rest =>
    let st := processHazard p phase h
    let acc := hazardLifetime st.hazard rest
    ⟨acc.hazard, st.nearMisses + acc.nearMisses, st.phaseThroughs + acc.phaseThroughs⟩

@[simp] lemma finishHazard_nearMisses (p : Player) (phase : Phase) (h : Hazard)
    (collision checked : Bool) (nm pt : ℕ) :
    (finishHazard p phase h collision checked nm pt).nearMisses = nm := by
  simp only [finishHazard]
  split_ifs <;> rfl

@[simp] lemma finishHazard_phaseThroughs (p : Player) (phase : Phase) (h : Hazard)
    (collision checked : Bool) (nm pt : ℕ) :
    (finishHazard p phase h collision checked nm pt).phaseThroughs = pt := by
  simp only [finishHazard]
  split_ifs <;> rfl

@[simp] lemma finishHazard_hazard (p : Player) (phase : Phase) (h : Hazard)
    (collision checked : Bool) (nm pt : ℕ) :
    (finishHazard p phase h collision checked nm pt).hazard
      = { h with nearMissChecked := checked } := by
  simp only [finishHazard]
  split_ifs <;> rfl

/-- The single-pass idempotence contract of a hazard classification: at most
one contribution, nothing once flagged, and the flag set on contribution. -/
def ClassOk (chk : Bool) (c : HazardClass) : Prop :=
  c.nearMisses + c.phaseThroughs ≤ 1
  ∧ (chk = true → c.checked = true ∧ c.nearMisses = 0 ∧ c.phaseThroughs = 0)
  ∧ (1 ≤ c.nearMisses + c.phaseThroughs → c.checked = true)

lemma classifyWall_ok (p : Player) (h : Hazard) :
    ClassOk h.nearMissChecked (classifyWall p h) := by
  simp only [ClassOk, classifyWall]
  split_ifs <;> simp_all

lemma classifyDrone_ok (p : Player) (h : Hazard) :
    ClassOk h.nearMissChecked (classifyDrone p h) := by
  simp only [ClassOk, classifyDrone]
  split_ifs <;> simp_all

lemma classifyLaser_ok (p : Player) (h : Hazard) :
    ClassOk h.nearMissChecked (classifyLaser p h) := by
  simp only [ClassOk, classifyLaser]
  rcases h.telegraphTimer with _ | t
  · simp
  · split_ifs <;> simp_all <;> split_ifs <;> simp_all

/-- One `checkHazardCollisions` pass over a single hazard contributes at most
one event in total, contributes nothing once the flag is set (and never
clears it), and sets the flag whenever it contributes. -/
lemma processHazard_step (p : Player) (phase : Phase) (h : Hazard) :
    ((processHazard p phase h).nearMisses + (processHazard p phase h).phaseThroughs ≤ 1)
    ∧ (h.nearMissChecked = true →
        (processHazard p phase h).hazard.nearMissChecked = true
        ∧ (processHazard p phase h).nearMisses = 0
        ∧ (processHazard p phase h).phaseThroughs = 0)
    ∧ (1 ≤ (processHazard p phase h).nearMisses + (processHazard p phase h).phaseThroughs →
        (processHazard p phase h).hazard.nearMissChecked = true) := by
  by_cases hact : h.active
  · have hc : ClassOk h.nearMissChecked
        (match h.type with
          | HazardType.wall => classifyWall p h
          | HazardType.drone => classifyDrone p h
          | HazardType.laser => classifyLaser p h) := by
      cases h.type
      · exact classifyWall_ok p h
      · exact classifyDrone_ok p h
      · exact classifyLaser_ok p h
    obtain ⟨h1, h2, h3⟩ := hc
    simp only [processHazard, hact, Bool.not_true, Bool.false_eq_true, if_false,
      finishHazard_nearMisses, finishHazard_phaseThroughs, finishHazard_hazard]
    exact ⟨h1, fun hchk => ⟨(h2 hchk).1, (h2 hchk).2.1, (h2 hchk).2.2⟩, h3⟩
  · simp [processHazard, hact]

/-- C3: over any sequence of `checkHazardCollisions` calls, a hazard
contributes at most one near-miss or phase-through in total over its
lifetime (never both, never more than one), and once its `nearMissChecked`
flag is set it is never cleared and nothing further is contributed. -/
theorem hazard_lifetime_at_most_one_event (h : Hazard) (calls : List (Player × Phase)) :
    (hazardLifetime h calls).nearMisses + (hazardLifetime h calls).phaseThroughs ≤ 1
    ∧ (h.nearMissChecked = true →
        (hazardLifetime h calls).hazard.nearMissChecked = true
        ∧ (hazardLifetime h calls).nearMisses + (hazardLifetime h calls).phaseThroughs = 0)
    ∧ (1 ≤ (hazardLifetime h calls).nearMisses + (hazardLifetime h calls).phaseThroughs →
        (hazardLifetime h calls).hazard.nearMissChecked = true) := by
  induction calls generalizing h with
  | nil => simp [hazardLifetime]
  | cons pc rest ih =>
    obtain ⟨p, ph⟩ := pc
    have hstep := processHazard_step p ph h
    have hih := ih (processHazard p ph h).hazard
    simp only [hazardLifetime]
    by_cases hchk : h.nearMissChecked = true
    · have hs := hstep.2.1 hchk
      have ha := hih.2.1 hs.1
      exact ⟨by omega, fun _ => ⟨ha.1, by omega⟩, fun _ => ha.1⟩
    · refine ⟨?_, fun hc => absurd hc hchk, ?_⟩
      · by_cases hc : 1 ≤ (processHazard p ph h).nearMisses + (processHazard p ph h).phaseThroughs
        · have ha := hih.2.1 (hstep.2.2 hc)
          have h1 := hstep.1
          omega
        · have h1 := hih.1
          omega
      · intro _
        by_cases hc : 1 ≤ (processHazard p ph h).nearMisses + (processHazard p ph h).phaseThroughs
        · exact (hih.2.1 (hstep.2.2 hc)).1
        · exact hih.2.2 (by omega)

/-- Player overlapping a phaseable wall while phase-active: centered inside
the wall footprint, phase timer running. -/
def cexPlayer : Player :=
  { createPlayer DEFAULT_CONFIG "player_1" with
    position := { x := 30, y := 10 }
    phaseActive := true }

/-- A phaseable wall at the origin whose near-miss flag is already set. -/
def cexWall : Hazard :=
  { id := "wall_1", position := { x := 0, y := 0 }, velocity := { x := 0, y := 0 }
    radius := 0, active := true, type := HazardType.wall, phaseable := true, damage := 1
    width := some 60, height := some 20, angle := none, length := none
    telegraphed := none, telegraphTimer := none, speed := none, nearMissChecked := true }

/-- Witness for C3: a hazard whose flag is already set stays flagged through a
call and contributes nothing. -/
theorem hazard_lifetime_at_most_one_event_witness :
    (hazardLifetime cexWall [(cexPlayer, Phase.playing)]).hazard.nearMissChecked = true
    ∧ (hazardLifetime cexWall [(cexPlayer, Phase.playing)]).nearMisses
      + (hazardLifetime cexWall [(cexPlayer, Phase.playing)]).phaseThroughs = 0 :=
  (hazard_lifetime_at_most_one_event cexWall [(cexPlayer, Phase.playing)]).2.1 rfl

/-- C9: `checkHazardCollisions` returns `collisions: false` on every input —
hits are observable only through the player mutation, never through the
returned flag. -/
theorem checkHazardCollisions_returns_no_collisions
    (hazards : List Hazard) (p : Player) (ph : Phase) :
    (checkHazardCollisions hazards p ph).result.collisions = false := rfl

/-- C4 (amended): a phaseable wall of positive extent that geometrically
overlaps a phase-active player and has not yet been flagged causes zero HP
loss (indeed no player or phase change at all), exactly one phase-through,
and no near-miss. -/
theorem phase_exemption_wall (p : Player) (ph : Phase) (h : Hazard) (w hh : ℚ)
    (hact : h.active = true) (htype : h.type = HazardType.wall)
    (hph : h.phaseable = true) (hpa : p.phaseActive = true)
    (hfresh : h.nearMissChecked = false)
    (hw : h.width = some w) (hht : h.height = some hh)
    (hwpos : 0 < w) (hhpos : 0 < hh)
    (hover : sqrtLt (wallDistSq p h.position.x h.position.y w hh) p.radius = true) :
    (processHazard p ph h).player = p
    ∧ (processHazard p ph h).phase = ph
    ∧ (processHazard p ph h).player.hp = p.hp
    ∧ (processHazard p ph h).phaseThroughs = 1
    ∧ (processHazard p ph h).nearMisses = 0 := by
  have hwne : w ≠ 0 := ne_of_gt hwpos
  have hhne : hh ≠ 0 := ne_of_gt hhpos
  -- unpack the overlap test
  have hover' : 0 < p.radius
      ∧ wallDistSq p h.position.x h.position.y w hh < p.radius * p.radius := by
    simpa [sqrtLt] using hover
  obtain ⟨hr, hd2⟩ := hover'
  set px := p.position.x with hpx
  set py := p.position.y with hpy
  set hx := h.position.x with hhx
  set hy := h.position.y with hhy
  set cx := max hx (min px (hx + w)) with hcx
  set cy := max hy (min py (hy + hh)) with hcy
  have hd2' : (px - cx) * (px - cx) + (py - cy) * (py - cy) < p.radius * p.radius := by
    simpa [wallDistSq, hcx, hcy] using hd2
  -- the closest point lies inside the rectangle
  have hcx1 : hx ≤ cx := le_max_left _ _
  have hcx2 : cx ≤ hx + w := max_le (by linarith) (min_le_right _ _)
  have hcy1 : hy ≤ cy := le_max_left _ _
  have hcy2 : cy ≤ hy + hh := max_le (by linarith) (min_le_right _ _)
  -- componentwise distance bounds
  have hdx1 : px - cx < p.radius := by nlinarith [sq_nonneg (py - cy), sq_nonneg (px - cx - p.radius)]
  have hdx2 : -p.radius < px - cx := by nlinarith [sq_nonneg (py - cy), sq_nonneg (px - cx + p.radius)]
  have hdy1 : py - cy < p.radius := by nlinarith [sq_nonneg (px - cx), sq_nonneg (py - cy - p.radius)]
  have hdy2 : -p.radius < py - cy := by nlinarith [sq_nonneg (px - cx), sq_nonneg (py - cy + p.radius)]
  -- the phase-through conditions of the wall branch
  have hgeomy : |py - (hy + hh / 2)| < p.radius + hh / 2 + 10 := by
    rw [abs_lt]
    constructor <;> linarith
  have hgeomx1 : hx - p.radius < px := by linarith
  have hgeomx2 : px < hx + w + p.radius := by linarith
  have hclass : classifyWall p h = ⟨true, true, 0, 1⟩ := by
    simp [classifyWall, hw, hht, truthy, hwne, hhne, orDefault, hfresh, hph, hpa,
      hover, hgeomy, hgeomx1, hgeomx2]
  have hproc : processHazard p ph h = finishHazard p ph h true true 0 1 := by
    simp only [processHazard, hact, Bool.not_true, Bool.false_eq_true, if_false, htype, hclass]
  have hfin : finishHazard p ph h true true 0 1
      = ⟨p, ph, { h with nearMissChecked := true }, 0, 1⟩ := by
    simp [finishHazard, hph, hpa]
  rw [hproc, hfin]
  exact ⟨rfl, rfl, rfl, rfl, rfl⟩

/-- Witness for C4 (amended): an unflagged copy of the concrete wall at the
concrete phase-active player yields no player change, one phase-through, no
near-miss. -/
theorem phase_exemption_wall_witness :
    (processHazard cexPlayer Phase.playing { cexWall with nearMissChecked := false }).player
      = cexPlayer
    ∧ (processHazard cexPlayer Phase.playing
        { cexWall with nearMissChecked := false }).phaseThroughs = 1
    ∧ (processHazard cexPlayer Phase.playing
        { cexWall with nearMissChecked := false }).nearMisses = 0 := by
  have h := phase_exemption_wall cexPlayer Phase.playing
    { cexWall with nearMissChecked := false } 60 20 rfl rfl rfl rfl rfl rfl rfl
    (by norm_num) (by norm_num)
    (by norm_num [sqrtLt, wallDistSq, cexPlayer, cexWall, createPlayer, DEFAULT_CONFIG,
      min_def, max_def])
  exact ⟨h.1, h.2.2.2.1, h.2.2.2.2⟩

/-- C4 counterexample: the same geometric overlap of a phaseable wall with a
phase-active player, but on a wall whose `nearMissChecked` flag is already
set: HP is still untouched, yet zero phase-throughs are counted, refuting the
unconditional "exactly one phase-through" reading of the claim. -/
theorem phase_exemption_cex :
    sqrtLt (wallDistSq cexPlayer cexWall.position.x cexWall.position.y 60 20)
        cexPlayer.radius = true
    ∧ cexWall.phaseable = true
    ∧ cexPlayer.phaseActive = true
    ∧ cexWall.active = true
    ∧ (checkHazardCollisions [cexWall] cexPlayer Phase.playing).player = cexPlayer
    ∧ (checkHazardCollisions [cexWall] cexPlayer Phase.playing).result.phaseThroughs = 0
    ∧ (checkHazardCollisions [cexWall] cexPlayer Phase.playing).result.nearMisses = 0 := by
  refine ⟨?_, rfl, rfl, rfl, ?_, ?_, ?_⟩ <;>
    norm_num [checkHazardCollisions, runHazardList, processHazard, classifyWall,
      finishHazard, cexWall, cexPlayer, createPlayer, DEFAULT_CONFIG, sqrtLt,
      wallDistSq, truthy, orDefault, NEAR_MISS_THRESHOLD, min_def, max_def]

/-- player.ts `updatePlayer` (lines 32-71): auto-scroll (slowed while
charging), horizontal friction and bounds clamp, charge growth clamped at
`maxCharge`, phase and invincibility countdowns, heat decay. -/
def updatePlayer (p : Player) (dt : ℚ) (config : GameConfig) : Player :=
  let chargeSlowdown : ℚ := if p.isCharging then 3 / 5 else 1
  let vy := 100 * chargeSlowdown
  let newY := p.position.y + vy * dt
  let vx := p.velocity.x * (19 / 20)
  let newX := max p.radius (min (config.screenWidth - p.radius) (p.position.x + vx * dt))
  let newCharge :=
    if p.isCharging then min p.maxCharge (p.charge + p.chargeSpeed * dt) else p.charge
  let phaseTimer' := if p.phaseActive then p.phaseTimer - dt else p.phaseTimer
  let phaseActive' := if p.phaseActive then decide (0 < phaseTimer') else p.phaseActive
  let invTimer' := if p.invincible then p.invincibleTimer - dt else p.invincibleTimer
  let invincible' := if p.invincible then decide (0 < invTimer') else p.invincible
  let heat' := max 0 (p.heat - (1 / 10) * dt)
  { p with
    position := { x := newX, y := newY }
    velocity := { x := vx, y := vy }
    charge := newCharge
    phaseActive := phaseActive', phaseTimer := phaseTimer'
    invincible := invincible', invincibleTimer := invTimer'
    heat := heat' }

/-- part_006 `spawnPickup` (lines 7-30).  The three `Math.random()` draws
become the oracle arguments `typeIdx` (already scaled and floored into the
weighted 5-entry type table) and `xr`, `yr` in `[0,1)`. -/
def spawnPickup (playerY : ℚ) (config : GameConfig) (typeIdx : Fin 5) (xr yr : ℚ)
    (pid : ℕ) : Pickup :=
  let types : List PickupType :=
    [PickupType.shard, PickupType.shard, PickupType.shard, PickupType.cell, PickupType.spark]
  let ty := types.get (Fin.cast rfl typeIdx)
  let value : ℤ := match ty with
    | PickupType.shard => 10
    | PickupType.cell => 1
    | PickupType.spark => 1
  { id := "pickup_" ++ toString pid
    position := { x := xr * (config.screenWidth - 40) + 20
                  y := playerY + config.screenHeight + yr * 200 }
    velocity := { x := 0, y := 0 }
    radius := if ty = PickupType.shard then 12 else 15
    active := true, type := ty, value := value, magnetized := false }

/-- part_006 `updatePickups` (lines 32-52): magnetized pickups aim straight
at the player at speed 500 (overwriting velocity), then every active pickup
integrates position.  `Math.sqrt` is the oracle function `sqrtFn`. -/
def updatePickups (pickups : List Pickup) (pl : Player) (dt : ℚ) (sqrtFn : ℚ → ℚ) :
    List Pickup :=
  pickups.map fun pk =>
    if !pk.active then pk else
    let pk :=
      if pk.magnetized then
        let dx := pl.position.x - pk.position.x
        let dy := pl.position.y - pk.position.y
        let dist := sqrtFn (dx * dx + dy * dy)
        if 0 < dist then
          { pk with velocity := { x := dx / dist * 500, y := dy / dist * 500 } }
        else pk
      else pk
    { pk with position := { x := pk.position.x + pk.velocity.x * dt
                            y := pk.position.y + pk.velocity.y * dt } }

/-- Result of the `pickups.forEach` loop in part_006 `checkPickupCollisions`. -/
structure PickupFold where
  pickups : List Pickup
  player : Player
  store : Store
  deriving DecidableEq, Repr

/-- The per-pickup body of part_006 `checkPickupCollisions` (lines 54-79):
on center-distance overlap the pickup is consumed; a shard pays shards and
multiplied score, a cell heals up to `maxHp`, a spark adds 0.1 multiplier. -/
def processPickup (pl : Player) (st : Store) (pk : Pickup) : Pickup × Player × Store :=
  if !pk.active then (pk, pl, st) else
  let dx := pk.position.x - pl.position.x
  let dy := pk.position.y - pl.position.y
  if sqrtLt (dx * dx + dy * dy) (pl.radius + pk.radius) then
    let pk' := { pk with active := false }
    match pk.type with
    | PickupType.shard =>
      (pk', pl, addScore (addShards st pk.value) ((pk.value : ℚ) * pl.multiplier))
    | PickupType.cell =>
      (pk', { pl with hp := min pl.maxHp (pl.hp + pk.value) }, st)
    | PickupType.spark =>
      (pk', { pl with multiplier := pl.multiplier + 1 / 10 }, st)
  else (pk, pl, st)

/-- part_006 `checkPickupCollisions` (lines 54-79) as a fold over the pickup
list in order. -/
def checkPickupCollisions : List Pickup → Player → Store → PickupFold
  | [], pl, st => ⟨[], pl, st⟩
  | pk :: rest, pl, st =>
    let r := processPickup pl st pk
    let acc := checkPickupCollisions rest r.2.1 r.2.2
    ⟨r.1 :: acc.pickups, acc.player, acc.store⟩

/-- Result of `spawnHazards`: pushed hazards plus the module-level spawner
state (`lastSpawnY`, `hazardIdCounter`). -/
structure SpawnOut where
  hazards : List Hazard
  lastSpawnY : ℚ
  counter : ℕ
  deriving DecidableEq, Repr

/-- hazards.ts `spawnHazards` (first revision, lines 12-45; the 3-argument
form the part_008 engine calls): spawn a wall every `200 / difficulty` of
vertical distance with probability 0.5, phaseable with probability 0.5,
width 60-160.  The `Math.random()` draws become oracle arguments. -/
def spawnHazards (playerY : ℚ) (config : GameConfig) (difficulty : ℚ)
    (lastSpawnY : ℚ) (counter : ℕ) (roll phRoll widthRand xRand : ℚ) : SpawnOut :=
  let spawnDistance := playerY + config.screenHeight + 100
  if 200 / difficulty < spawnDistance - lastSpawnY then
    if roll < 1 / 2 then
      let isPhaseable := decide (phRoll < 1 / 2)
      let wallWidth := 60 + widthRand * 100
      { hazards := [{ id := "hazard_" ++ toString (counter + 1)
                      position := { x := xRand * (config.screenWidth - wallWidth)
                                    y := spawnDistance }
                      velocity := { x := 0, y := 0 }
                      radius := 0, active := true, type := HazardType.wall
                      phaseable := isPhaseable, damage := 1
                      width := some wallWidth, height := some 20
                      angle := none, length := none, telegraphed := none
                      telegraphTimer := none, speed := none, nearMissChecked := false }]
        lastSpawnY := spawnDistance, counter := counter + 1 }
    else { hazards := [], lastSpawnY := spawnDistance, counter := counter }
  else { hazards := [], lastSpawnY := lastSpawnY, counter := counter }

/-- hazards.ts `updateHazards` (second revision, lines 431-480): drones count
down their telegraph then chase with exponentially-lerped velocity; lasers
run the sign-encoded telegraph→active→gone timer; all hazards integrate
position. -/
def updateHazards (hazards : List Hazard) (pl : Player) (dt : ℚ) (sqrtFn : ℚ → ℚ) :
    List Hazard :=
  hazards.map fun h =>
    if !h.active then h else
    let h :=
      match h.type with
      | HazardType.drone =>
        if h.telegraphed.getD false
            && (match h.telegraphTimer with
                | some t => decide (0 < t)
                | none => false) then
          { h with telegraphTimer := some (h.telegraphTimer.getD 0 - dt) }
        else
          let h := { h with telegraphed := some false }
          match h.speed with
          | none => h
          | some sp =>
            let dx := pl.position.x - h.position.x
            let dy := pl.position.y - h.position.y
            let dist := sqrtFn (dx * dx + dy * dy)
            if 0 < dist then
              { h with velocity :=
                { x := h.velocity.x + (dx / dist * sp - h.velocity.x) * (1 / 20)
                  y := h.velocity.y + (dy / dist * sp - h.velocity.y) * (1 / 20) } }
            else h
      | HazardType.laser =>
        match h.telegraphTimer with
        | none => h
        | some t =>
          if 0 < t then
            let t' := t - dt
            if t' ≤ 0 then
              { h with telegraphed := some false, telegraphTimer := some (-(2 / 5)) }
            else { h with telegraphTimer := some t' }
          else if t < 0 then
            let t' := t + dt
            if 0 ≤ t' then { h with active := false, telegraphTimer := some t' }
            else { h with telegraphTimer := some t' }
          else h
      | HazardType.wall => h
    { h with position := { x := h.position.x + h.velocity.x * dt
                           y := h.position.y + h.velocity.y * dt } }

/-- part_008 `GameEngine` mutable state: public entity/camera fields plus the
engine's `lastPulseTime` and the module-level spawner counters of the pickup
and hazard systems. -/
structure Engine where
  config : GameConfig
  player : Player
  pickups : List Pickup
  hazards : List Hazard
  cameraY : ℚ
  lastPulseTime : ℚ
  lastSpawnY : ℚ
  hazardIdCounter : ℕ
  pickupIdCounter : ℕ
  deriving DecidableEq, Repr

/-- part_008 rhythm window constants (lines 19-20). -/
def RHYTHM_WINDOW_MIN : ℚ := 4 / 5

/-- part_008 rhythm window constants (lines 19-20). -/
def RHYTHM_WINDOW_MAX : ℚ := 3 / 2

/-- `store.multiplier || 1` (part_008 line 221): the untyped multiplier field
defaulted on JS falsiness (absent or zero). -/
def effMultiplier (st : Store) : ℚ :=
  match st.multiplier with
  | none => 1
  | some m => if m = 0 then 1 else m

/-- The per-tick randomness and external inputs of one `fixedUpdate` tick:
every `Math.random()` draw, the upgrade-choice shuffle, and `Math.sqrt`. -/
structure TickOracle where
  pickupRoll : ℚ
  pickupTypeIdx : Fin 5
  pickupXRand : ℚ
  pickupYRand : ℚ
  wallRoll : ℚ
  phaseableRoll : ℚ
  widthRand : ℚ
  xRand : ℚ
  upgradeChoices : List Upgrade
  sqrtFn : ℚ → ℚ

/-- part_008 `handleTouchStart` (lines 170-174). -/
def handleTouchStart (e : Engine) (st : Store) : Engine :=
  if st.phase ≠ Phase.playing then e
  else { e with player := { e.player with isCharging := true } }

/-- part_008 `pulse` (lines 187-229): rhythm-streak update from the
inter-pulse interval, upward dash scaled by the charge ratio, phase
activation, pickup magnetization within `magnetRange × ratio`, the perfect
pulse bonus when the ratio exceeds 0.9 (one `addPerfectPulse` and
`addScore(50 × (store.multiplier || 1))`), heat gain, charge reset.
`performance.now()/1000` is the oracle argument `currentTime`. -/
def pulse (e : Engine) (st : Store) (currentTime : ℚ) : Engine × Store :=
  let chargeFrac := e.player.charge / e.player.maxCharge
  let st1 :=
    if 0 < e.lastPulseTime then
      let timeSinceLastPulse := currentTime - e.lastPulseTime
      updateRhythmStreak st
        (decide (RHYTHM_WINDOW_MIN ≤ timeSinceLastPulse
          ∧ timeSinceLastPulse ≤ RHYTHM_WINDOW_MAX))
    else st
  let player := { e.player with
    velocity := { e.player.velocity with
      y := e.player.velocity.y + e.player.dashPower * chargeFrac } }
  let player := { player with phaseActive := true, phaseTimer := player.phaseDuration }
  let pickups := e.pickups.map fun pk =>
    let dx := pk.position.x - player.position.x
    let dy := pk.position.y - player.position.y
    if sqrtLt (dx * dx + dy * dy) (player.magnetRange * chargeFrac) then
      { pk with magnetized := true }
    else pk
  let st2 :=
    if 9 / 10 < chargeFrac then
      addScore (addPerfectPulse st1) (50 * effMultiplier st)
    else st1
  let player := { player with heat := min 1 (player.heat + 1 / 5), charge := 0 }
  ({ e with player := player, pickups := pickups, lastPulseTime := currentTime }, st2)

/-- part_008 `handleTouchEnd` (lines 176-185): in the playing phase, fire a
pulse when the accumulated charge exceeds 0.1, then always clear
`isCharging` and reset `charge` to 0. -/
def handleTouchEnd (e : Engine) (st : Store) (currentTime : ℚ) : Engine × Store :=
  if st.phase ≠ Phase.playing then (e, st) else
  let r := if 1 / 10 < e.player.charge then pulse e st currentTime else (e, st)
  ({ r.1 with player := { r.1.player with isCharging := false, charge := 0 } }, r.2)

/-- Main body of part_008 `fixedUpdate` (lines 118-167), after the timer and
upgrade-interval early returns: low-HP accounting, player update, camera,
probabilistic pickup spawn, wall spawn, entity updates, pickup then hazard
collision resolution, per-event mastery forwarding, culling, distance.
Reads of snapshot fields (`store.difficulty` in the spawn rolls) use the
tick-entry snapshot `st0` exactly as the zustand `getState()` snapshot does
in the source. -/
def tickCore (e : Engine) (st0 : Store) (stIn : Store) (dt : ℚ) (o : TickOracle) :
    Engine × Store :=
  let st := if e.player.hp = 1 then addLowHpTime stIn dt else stIn
  let player := updatePlayer e.player dt e.config
  let cameraY := max 0 (player.position.y - e.config.screenHeight / 2)
  let spawnPk : Bool := decide (o.pickupRoll < 1 / 40 * st0.difficulty)
  let pickups0 :=
    if spawnPk then
      e.pickups ++ [spawnPickup player.position.y e.config o.pickupTypeIdx
        o.pickupXRand o.pickupYRand (e.pickupIdCounter + 1)]
    else e.pickups
  let pickupIdCounter' := if spawnPk then e.pickupIdCounter + 1 else e.pickupIdCounter
  let sp := spawnHazards player.position.y e.config st0.difficulty e.lastSpawnY
    e.hazardIdCounter o.wallRoll o.phaseableRoll o.widthRand o.xRand
  let hazards0 := e.hazards ++ sp.hazards
  let pickups1 := updatePickups pickups0 player dt o.sqrtFn
  let hazards1 := updateHazards hazards0 player dt o.sqrtFn
  let pf := checkPickupCollisions pickups1 player st
  let hout := checkHazardCollisions hazards1 pf.player pf.store.phase
  let st := { pf.store with phase := hout.phase }
  let st := addNearMiss^[hout.result.nearMisses] st
  let st := addPhaseThrough^[hout.result.phaseThroughs] st
  let cleanupThreshold := hout.player.position.y - e.config.screenHeight
  let pickups2 := pf.pickups.filter fun p =>
    decide (cleanupThreshold < p.position.y) && p.active
  let hazards2 := hout.hazards.filter fun h =>
    decide (cleanupThreshold < h.position.y) && h.active
  let st := addDistance st (hout.player.velocity.y * dt)
  ({ e with player := hout.player, pickups := pickups2, hazards := hazards2
            cameraY := cameraY, lastSpawnY := sp.lastSpawnY
            hazardIdCounter := sp.counter, pickupIdCounter := pickupIdCounter' },
   st)

/-- part_008 `fixedUpdate` (lines 94-168), one deterministic tick: decrement
the run timer and end the run at zero; recompute difficulty from the elapsed
ratio; enter the upgrade sub-phase and skip the rest of the tick when the
upgrade interval has elapsed; otherwise run the tick core. -/
def fixedUpdate (e : Engine) (st0 : Store) (dt : ℚ) (o : TickOracle) :
    Engine × Store :=
  let newTimer := st0.timer - dt
  if newTimer ≤ 0 then
    (e, endRun (setPhase st0 Phase.ended))
  else
  let st := setTimer st0 newTimer
  let elapsed := st0.maxTime - newTimer
  let newDifficulty := 1 + elapsed / st0.maxTime * 2
  let st := setDifficulty st newDifficulty
  if st0.upgradeInterval ≤ elapsed - st0.lastUpgradeTime then
    (e, triggerUpgradeChoice st o.upgradeChoices)
  else tickCore e st0 st dt o

/-- The engine's entity state right after `start()` (part_008 lines 42-52). -/
def engine0 : Engine :=
  { config := DEFAULT_CONFIG, player := createPlayer DEFAULT_CONFIG "player_1"
    pickups := [], hazards := [], cameraY := 0, lastPulseTime := 0
    lastSpawnY := 0, hazardIdCounter := 0, pickupIdCounter := 0 }

/-- The store in the playing phase at run start. -/
def store0 : Store := { INITIAL_STATE with phase := Phase.playing }

/-- C10: during the playing phase, a press-end always clears `isCharging` and
resets `charge` to exactly 0, and when the accumulated charge is at or below
the 0.1 pulse threshold no pulse fires: nothing else changes. -/
theorem handleTouchEnd_resets_charge (e : Engine) (st : Store) (now : ℚ)
    (hph : st.phase = Phase.playing) :
    (handleTouchEnd e st now).1.player.isCharging = false
    ∧ (handleTouchEnd e st now).1.player.charge = 0
    ∧ (e.player.charge ≤ 1 / 10 →
        (handleTouchEnd e st now).1
          = { e with player := { e.player with isCharging := false, charge := 0 } }
        ∧ (handleTouchEnd e st now).2 = st) := by
  have hne : ¬ st.phase ≠ Phase.playing := by simp [hph]
  simp only [handleTouchEnd, if_neg hne]
  refine ⟨by trivial, by trivial, fun hle => ?_⟩
  rw [if_neg (not_lt.2 hle)]
  refine ⟨?_, ?_⟩ <;> trivial

/-- Witness for C10: at run start (charge 0 ≤ 0.1), a press-end leaves the
fresh engine unchanged except `isCharging := false`, `charge := 0`, and the
store untouched. -/
theorem handleTouchEnd_resets_charge_witness :
    (handleTouchEnd engine0 store0 0).1
      = { engine0 with player :=
          { engine0.player with isCharging := false, charge := 0 } }
    ∧ (handleTouchEnd engine0 store0 0).2 = store0 :=
  (handleTouchEnd_resets_charge engine0 store0 0 rfl).2.2
    (by norm_num [engine0, createPlayer, DEFAULT_CONFIG])

lemma updateRhythmStreak_perfectPulses (st : Store) (b : Bool) :
    (updateRhythmStreak st b).perfectPulses = st.perfectPulses := by
  simp only [updateRhythmStreak]
  split_ifs <;> rfl

lemma updateRhythmStreak_mastery_perfectPulses (st : Store) (b : Bool) :
    (updateRhythmStreak st b).masteryStats.perfectPulses
      = st.masteryStats.perfectPulses := by
  simp only [updateRhythmStreak]
  split_ifs <;> rfl

lemma updateRhythmStreak_score (st : Store) (b : Bool) :
    (updateRhythmStreak st b).score = st.score := by
  simp only [updateRhythmStreak]
  split_ifs <;> rfl

/-- C5: releasing a press in the playing phase with charge equal to
`1.0 × maxCharge` fires exactly one perfect-pulse event (the HUD counter and
the mastery accumulator each gain exactly 1 and the event is pushed), and the
score grows by `floor(50 × multiplier)` — equal to `50 × multiplier` whenever
the effective multiplier is an integer, as it is for the default 1. -/
theorem perfect_pulse_scoring (e : Engine) (st : Store) (now : ℚ)
    (hph : st.phase = Phase.playing)
    (hch : e.player.charge = e.player.maxCharge)
    (hmax : 1 / 10 < e.player.maxCharge) :
    (handleTouchEnd e st now).2.perfectPulses = st.perfectPulses + 1
    ∧ (handleTouchEnd e st now).2.masteryStats.perfectPulses
        = st.masteryStats.perfectPulses + 1
    ∧ (handleTouchEnd e st now).2.score = st.score + Int.floor (50 * effMultiplier st)
    ∧ (∀ k : ℤ, effMultiplier st = (k : ℚ) →
        (handleTouchEnd e st now).2.score = st.score + 50 * k)
    ∧ (handleTouchEnd e st now).2.recentEvents.getLast?
        = some { kind := EventKind.perfectPulse, value := some 1 } := by
  have hq : (0 : ℚ) < e.player.maxCharge := lt_trans (by norm_num) hmax
  have hfrac : e.player.charge / e.player.maxCharge = 1 := by
    rw [hch]
    field_simp
  have hgt : 1 / 10 < e.player.charge := hch ▸ hmax
  have hne : ¬ st.phase ≠ Phase.playing := by simp [hph]
  simp only [handleTouchEnd, if_neg hne, if_pos hgt, pulse, hfrac]
  rw [if_pos (by norm_num : (9 : ℚ) / 10 < 1)]
  constructor
  · split_ifs <;>
      simp [addScore, addPerfectPulse, updateRhythmStreak_perfectPulses]
  constructor
  · split_ifs <;>
      simp [addScore, addPerfectPulse, updateRhythmStreak_mastery_perfectPulses]
  have hsc : ∀ st1 : Store, st1.score = st.score →
      (addScore (addPerfectPulse st1) (50 * effMultiplier st)).score
        = st.score + Int.floor (50 * effMultiplier st) := by
    intro st1 hs
    simp [addScore, addPerfectPulse, hs]
  refine ⟨?_, fun k hk => ?_, ?_⟩
  · split_ifs with hlp
    · exact hsc _ (updateRhythmStreak_score st _)
    · exact hsc st rfl
  · have hfl : Int.floor (50 * effMultiplier st) = 50 * k := by
      rw [hk]
      exact_mod_cast Int.floor_intCast (50 * k)
    split_ifs with hlp
    · rw [hsc _ (updateRhythmStreak_score st _), hfl]
    · rw [hsc st rfl, hfl]
  · split_ifs <;> simp [addScore, addPerfectPulse, pushEvent]

/-- Witness for C5: a fully charged release on the fresh run adds exactly one
perfect pulse and 50 points (multiplier defaulted to 1). -/
theorem perfect_pulse_scoring_witness :
    (handleTouchEnd { engine0 with
        player := { engine0.player with charge := 1 } } store0 0).2.perfectPulses
      = store0.perfectPulses + 1
    ∧ (handleTouchEnd { engine0 with
        player := { engine0.player with charge := 1 } } store0 0).2.score
      = store0.score + 50 * 1 := by
  have h := perfect_pulse_scoring
    { engine0 with player := { engine0.player with charge := 1 } } store0 0
    rfl rfl (by norm_num [engine0, createPlayer, DEFAULT_CONFIG])
  exact ⟨h.1, h.2.2.2.1 1 (by simp [effMultiplier, store0, INITIAL_STATE])⟩

/-- HP part of the tick invariant, threaded through collision resolution:
hp within `[0, maxHp]`, an un-invincible player has at least 1 hp, and a
playing-phase player has at least 1 hp. -/
def HpOk (p : Player) (ph : Phase) : Prop :=
  0 ≤ p.hp ∧ p.hp ≤ p.maxHp
  ∧ (1 ≤ p.hp ∨ p.invincible = true)
  ∧ (ph = Phase.playing → 1 ≤ p.hp)

/-- `damagePlayer` with the game's only damage amount 1 keeps `HpOk`:
invincibility absorbs the hit, and otherwise hp drops by one from at least 1,
with the phase flipped to ended exactly when hp reaches 0. -/
lemma damagePlayer_step (p : Player) (ph : Phase) (hok : HpOk p ph) :
    HpOk (damagePlayer p 1 ph).1 (damagePlayer p 1 ph).2
    ∧ (damagePlayer p 1 ph).1.charge = p.charge
    ∧ (damagePlayer p 1 ph).1.maxCharge = p.maxCharge
    ∧ (damagePlayer p 1 ph).1.chargeSpeed = p.chargeSpeed
    ∧ (damagePlayer p 1 ph).1.maxHp = p.maxHp := by
  obtain ⟨h0, h1, h2, h3⟩ := hok
  have hge : ¬ p.invincible = true → 1 ≤ p.hp := fun hinv => h2.resolve_right hinv
  simp only [damagePlayer, HpOk]
  split_ifs with hinv hend
  · exact ⟨⟨h0, h1, h2, h3⟩, rfl, rfl, rfl, rfl⟩
  · have hp1 := hge hinv
    exact ⟨⟨by show (0 : ℤ) ≤ p.hp - 1; omega, by show p.hp - 1 ≤ p.maxHp; omega,
      Or.inr rfl, fun hc => hc.elim⟩, rfl, rfl, rfl, rfl⟩
  · have hp1 := hge hinv
    have hgt : ¬ (p.hp - 1 ≤ 0) := hend
    exact ⟨⟨by show (0 : ℤ) ≤ p.hp - 1; omega, by show p.hp - 1 ≤ p.maxHp; omega,
      Or.inr rfl, fun _ => by show (1 : ℤ) ≤ p.hp - 1; omega⟩, rfl, rfl, rfl, rfl⟩

/-- `finishHazard` keeps `HpOk` for damage-1 hazards and leaves the charge
scalars and the hazard's damage untouched. -/
lemma finishHazard_hpOk (p : Player) (ph : Phase) (h : Hazard)
    (c chk : Bool) (nm pt : ℕ) (hd : h.damage = 1) (hok : HpOk p ph) :
    HpOk (finishHazard p ph h c chk nm pt).player (finishHazard p ph h c chk nm pt).phase
    ∧ (finishHazard p ph h c chk nm pt).player.charge = p.charge
    ∧ (finishHazard p ph h c chk nm pt).player.maxCharge = p.maxCharge
    ∧ (finishHazard p ph h c chk nm pt).player.chargeSpeed = p.chargeSpeed
    ∧ (finishHazard p ph h c chk nm pt).player.maxHp = p.maxHp
    ∧ (finishHazard p ph h c chk nm pt).hazard.damage = h.damage := by
  simp only [finishHazard]
  split_ifs
  · refine ⟨hok, ?_, ?_, ?_, ?_, ?_⟩ <;> trivial
  · rw [hd]
    have hh := damagePlayer_step p ph hok
    refine ⟨hh.1, hh.2.1, hh.2.2.1, hh.2.2.2.1, hh.2.2.2.2, ?_⟩
    trivial
  · refine ⟨hok, ?_, ?_, ?_, ?_, ?_⟩ <;> trivial

/-- One hazard pass keeps `HpOk` and the charge scalars, and preserves the
hazard's damage value. -/
lemma processHazard_hpOk (p : Player) (ph : Phase) (h : Hazard)
    (hd : h.damage = 1) (hok : HpOk p ph) :
    HpOk (processHazard p ph h).player (processHazard p ph h).phase
    ∧ (processHazard p ph h).player.charge = p.charge
    ∧ (processHazard p ph h).player.maxCharge = p.maxCharge
    ∧ (processHazard p ph h).player.chargeSpeed = p.chargeSpeed
    ∧ (processHazard p ph h).player.maxHp = p.maxHp
    ∧ (processHazard p ph h).hazard.damage = h.damage := by
  by_cases hact : h.active
  · simp only [processHazard, hact, Bool.not_true, Bool.false_eq_true, if_false]
    exact finishHazard_hpOk p ph h _ _ _ _ hd hok
  · simp only [processHazard]
    simp only [Bool.not_eq_true] at hact
    simp only [hact, Bool.not_false, if_true]
    refine ⟨hok, ?_, ?_, ?_, ?_, ?_⟩ <;> trivial

/-- The whole `forEach` loop of `checkHazardCollisions` keeps `HpOk` and the
charge scalars, and every output hazard still has damage 1. -/
lemma runHazardList_hpOk (hs : List Hazard) (p : Player) (ph : Phase)
    (hd : ∀ h ∈ hs, h.damage = 1) (hok : HpOk p ph) :
    HpOk (runHazardList p ph hs).player (runHazardList p ph hs).phase
    ∧ (runHazardList p ph hs).player.charge = p.charge
    ∧ (runHazardList p ph hs).player.maxCharge = p.maxCharge
    ∧ (runHazardList p ph hs).player.chargeSpeed = p.chargeSpeed
    ∧ (runHazardList p ph hs).player.maxHp = p.maxHp
    ∧ (∀ h ∈ (runHazardList p ph hs).hazards, h.damage = 1) := by
  induction hs generalizing p ph with
  | nil =>
    simp only [runHazardList]
    refine ⟨hok, ?_, ?_, ?_, ?_, by simp⟩ <;> trivial
  | cons h rest ih =>
    have hd1 : h.damage = 1 := hd h (by simp)
    have hstep := processHazard_hpOk p ph h hd1 hok
    have hrest := ih (processHazard p ph h).player (processHazard p ph h).phase
      (fun h' hm => hd h' (by simp [hm])) hstep.1
    simp only [runHazardList]
    refine ⟨hrest.1, hrest.2.1.trans hstep.2.1, hrest.2.2.1.trans hstep.2.2.1,
      hrest.2.2.2.1.trans hstep.2.2.2.1, hrest.2.2.2.2.1.trans hstep.2.2.2.2.1, ?_⟩
    intro h' hm
    simp only [List.mem_cons] at hm
    rcases hm with rfl | hm
    · exact hstep.2.2.2.2.2.trans hd1
    · exact hrest.2.2.2.2.2 h' hm

/-- One pickup pass keeps `HpOk` (a cell heal is clamped at `maxHp` and never
lowers hp), never touches the run phase or the charge scalars, and keeps the
pickup's value. -/
lemma processPickup_hpOk (pl : Player) (st : Store) (pk : Pickup)
    (hv : 0 ≤ pk.value) (hok : HpOk pl st.phase) :
    HpOk (processPickup pl st pk).2.1 (processPickup pl st pk).2.2.phase
    ∧ (processPickup pl st pk).2.2.phase = st.phase
    ∧ (processPickup pl st pk).2.1.charge = pl.charge
    ∧ (processPickup pl st pk).2.1.maxCharge = pl.maxCharge
    ∧ (processPickup pl st pk).2.1.chargeSpeed = pl.chargeSpeed
    ∧ (processPickup pl st pk).2.1.maxHp = pl.maxHp
    ∧ (processPickup pl st pk).1.value = pk.value := by
  obtain ⟨h0, h1, h2, h3⟩ := hok
  simp only [processPickup]
  split_ifs with hact hcoll
  · refine ⟨⟨h0, h1, h2, h3⟩, ?_, ?_, ?_, ?_, ?_, ?_⟩ <;> trivial
  · cases hty : pk.type
    · refine ⟨⟨h0, h1, h2, h3⟩, ?_, ?_, ?_, ?_, ?_, ?_⟩ <;>
        simp [addScore, addShards]
    · have hmax0 : (0 : ℤ) ≤ pl.maxHp := le_trans h0 h1
      refine ⟨⟨?_, ?_, ?_, ?_⟩, ?_, ?_, ?_, ?_, ?_, ?_⟩ <;> try trivial
      · show (0 : ℤ) ≤ min pl.maxHp (pl.hp + pk.value)
        omega
      · show min pl.maxHp (pl.hp + pk.value) ≤ pl.maxHp
        omega
      · rcases h2 with h | h
        · left
          show (1 : ℤ) ≤ min pl.maxHp (pl.hp + pk.value)
          omega
        · exact Or.inr h
      · intro hph
        have := h3 hph
        show (1 : ℤ) ≤ min pl.maxHp (pl.hp + pk.value)
        omega
    · refine ⟨⟨h0, h1, h2, h3⟩, ?_, ?_, ?_, ?_, ?_, ?_⟩ <;> trivial
  · refine ⟨⟨h0, h1, h2, h3⟩, ?_, ?_, ?_, ?_, ?_, ?_⟩ <;> trivial

/-- The whole `pickups.forEach` loop keeps `HpOk`, the phase and the charge
scalars, and every output pickup keeps a non-negative value. -/
lemma checkPickupCollisions_hpOk (pks : List Pickup) (pl : Player) (st : Store)
    (hv : ∀ pk ∈ pks, 0 ≤ pk.value) (hok : HpOk pl st.phase) :
    HpOk (checkPickupCollisions pks pl st).player (checkPickupCollisions pks pl st).store.phase
    ∧ (checkPickupCollisions pks pl st).store.phase = st.phase
    ∧ (checkPickupCollisions pks pl st).player.charge = pl.charge
    ∧ (checkPickupCollisions pks pl st).player.maxCharge = pl.maxCharge
    ∧ (checkPickupCollisions pks pl st).player.chargeSpeed = pl.chargeSpeed
    ∧ (checkPickupCollisions pks pl st).player.maxHp = pl.maxHp
    ∧ (∀ pk ∈ (checkPickupCollisions pks pl st).pickups, 0 ≤ pk.value) := by
  induction pks generalizing pl st with
  | nil =>
    simp only [checkPickupCollisions]
    refine ⟨hok, ?_, ?_, ?_, ?_, ?_, by simp⟩ <;> trivial
  | cons pk rest ih =>
    have hv1 : 0 ≤ pk.value := hv pk (by simp)
    have hstep := processPickup_hpOk pl st pk hv1 hok
    have hrest := ih (processPickup pl st pk).2.1 (processPickup pl st pk).2.2
      (fun pk' hm => hv pk' (by simp [hm])) hstep.1
    simp only [checkPickupCollisions]
    refine ⟨hrest.1, hrest.2.1.trans hstep.2.1, hrest.2.2.1.trans hstep.2.2.1,
      hrest.2.2.2.1.trans hstep.2.2.2.1, hrest.2.2.2.2.1.trans hstep.2.2.2.2.1,
      hrest.2.2.2.2.2.1.trans hstep.2.2.2.2.2.1, ?_⟩
    intro pk' hm
    simp only [List.mem_cons] at hm
    rcases hm with rfl | hm
    · exact hstep.2.2.2.2.2.2.symm ▸ hv1
    · exact hrest.2.2.2.2.2.2 pk' hm

/-- `updatePlayer` clamps the charge into `[0, maxCharge]` (given it starts
there and the charge speed and timestep are non-negative) and leaves hp,
maxHp, maxCharge and chargeSpeed untouched. -/
lemma updatePlayer_bounds (p : Player) (dt : ℚ) (config : GameConfig)
    (hc0 : 0 ≤ p.charge) (hc1 : p.charge ≤ p.maxCharge)
    (hcs : 0 ≤ p.chargeSpeed) (hdt : 0 ≤ dt) :
    0 ≤ (updatePlayer p dt config).charge
    ∧ (updatePlayer p dt config).charge ≤ (updatePlayer p dt config).maxCharge
    ∧ (updatePlayer p dt config).hp = p.hp
    ∧ (updatePlayer p dt config).maxHp = p.maxHp
    ∧ (updatePlayer p dt config).maxCharge = p.maxCharge
    ∧ (updatePlayer p dt config).chargeSpeed = p.chargeSpeed := by
  simp only [updatePlayer]
  split_ifs with hch
  · refine ⟨?_, ?_, ?_, ?_, ?_, ?_⟩ <;> try trivial
    · show (0 : ℚ) ≤ min p.maxCharge (p.charge + p.chargeSpeed * dt)
      have : 0 ≤ p.chargeSpeed * dt := mul_nonneg hcs hdt
      have : 0 ≤ p.charge + p.chargeSpeed * dt := by linarith
      exact le_min (le_trans hc0 hc1) this
    · show min p.maxCharge (p.charge + p.chargeSpeed * dt) ≤ p.maxCharge
      exact min_le_left _ _
  · refine ⟨?_, ?_, ?_, ?_, ?_, ?_⟩ <;> trivial

/-- Every hazard produced by `spawnHazards` carries damage 1. -/
lemma spawnHazards_damage (playerY : ℚ) (config : GameConfig) (difficulty : ℚ)
    (lastSpawnY : ℚ) (counter : ℕ) (roll phRoll widthRand xRand : ℚ) :
    ∀ h ∈ (spawnHazards playerY config difficulty lastSpawnY counter
        roll phRoll widthRand xRand).hazards, h.damage = 1 := by
  simp only [spawnHazards]
  split_ifs <;> simp

/-- Every pickup produced by `spawnPickup` has a non-negative value (10, 1 or
1 by type). -/
lemma spawnPickup_value (playerY : ℚ) (config : GameConfig) (typeIdx : Fin 5)
    (xr yr : ℚ) (pid : ℕ) :
    0 ≤ (spawnPickup playerY config typeIdx xr yr pid).value := by
  simp only [spawnPickup]
  split <;> norm_num

/-- `updatePickups` moves pickups but keeps each one's value. -/
lemma updatePickups_value (pks : List Pickup) (pl : Player) (dt : ℚ) (f : ℚ → ℚ)
    (hv : ∀ pk ∈ pks, 0 ≤ pk.value) :
    ∀ pk ∈ updatePickups pks pl dt f, 0 ≤ pk.value := by
  intro pk' hm
  simp only [updatePickups, List.mem_map] at hm
  obtain ⟨pk, hpk, rfl⟩ := hm
  have := hv pk hpk
  split_ifs <;> simpa

/-- `updateHazards` moves hazards but keeps each one's damage. -/
lemma updateHazards_damage (hs : List Hazard) (pl : Player) (dt : ℚ) (f : ℚ → ℚ)
    (hd : ∀ h ∈ hs, h.damage = 1) :
    ∀ h ∈ updateHazards hs pl dt f, h.damage = 1 := by
  intro h' hm
  simp only [updateHazards, List.mem_map] at hm
  obtain ⟨h, hh, rfl⟩ := hm
  have hd1 := hd h hh
  by_cases hact : h.active
  · simp only [hact, Bool.not_true, Bool.false_eq_true, if_false]
    repeat' split
    all_goals simpa
  · simp only [Bool.not_eq_true] at hact
    simp only [hact, Bool.not_false, if_true]
    simpa

lemma addLowHpTime_phase (s : Store) (t : ℚ) : (addLowHpTime s t).phase = s.phase := by
  simp only [addLowHpTime]
  split_ifs <;> rfl

lemma addNearMiss_phase (s : Store) : (addNearMiss s).phase = s.phase := rfl

lemma addPhaseThrough_phase (s : Store) : (addPhaseThrough s).phase = s.phase := rfl

lemma iterate_phase (f : Store → Store) (hf : ∀ s, (f s).phase = s.phase) :
    ∀ (n : ℕ) (s : Store), (f^[n] s).phase = s.phase := by
  intro n
  induction n with
  | zero => intro s; rfl
  | succ n ih =>
    intro s
    rw [Function.iterate_succ_apply, ih (f s), hf s]

/-- `checkHazardCollisions` exposes the loop's player, phase and hazards
unchanged, so the loop lemma transfers. -/
lemma checkHazardCollisions_hpOk (hz : List Hazard) (p : Player) (ph : Phase)
    (hd : ∀ h ∈ hz, h.damage = 1) (hok : HpOk p ph) :
    HpOk (checkHazardCollisions hz p ph).player (checkHazardCollisions hz p ph).phase
    ∧ (checkHazardCollisions hz p ph).player.charge = p.charge
    ∧ (checkHazardCollisions hz p ph).player.maxCharge = p.maxCharge
    ∧ (checkHazardCollisions hz p ph).player.chargeSpeed = p.chargeSpeed
    ∧ (checkHazardCollisions hz p ph).player.maxHp = p.maxHp
    ∧ (∀ h ∈ (checkHazardCollisions hz p ph).hazards, h.damage = 1) :=
  runHazardList_hpOk hz p ph hd hok

/-- The tick-core preserves the HP/charge bounds and the entity
wellformedness, and keeps a playing-phase player at 1 hp or more. -/
lemma tickCore_inv (e : Engine) (st0 stIn : Store) (dt : ℚ) (o : TickOracle)
    (hph : stIn.phase = Phase.playing)
    (hhp0 : 0 ≤ e.player.hp) (hhp1 : e.player.hp ≤ e.player.maxHp)
    (hc0 : 0 ≤ e.player.charge) (hc1 : e.player.charge ≤ e.player.maxCharge)
    (hp1 : 1 ≤ e.player.hp)
    (hcs : 0 ≤ e.player.chargeSpeed) (hdt : 0 ≤ dt)
    (hhaz : ∀ h ∈ e.hazards, h.damage = 1)
    (hpk : ∀ pk ∈ e.pickups, 0 ≤ pk.value) :
    0 ≤ (tickCore e st0 stIn dt o).1.player.hp
    ∧ (tickCore e st0 stIn dt o).1.player.hp ≤ (tickCore e st0 stIn dt o).1.player.maxHp
    ∧ 0 ≤ (tickCore e st0 stIn dt o).1.player.charge
    ∧ (tickCore e st0 stIn dt o).1.player.charge
        ≤ (tickCore e st0 stIn dt o).1.player.maxCharge
    ∧ ((tickCore e st0 stIn dt o).2.phase = Phase.playing →
        1 ≤ (tickCore e st0 stIn dt o).1.player.hp)
    ∧ 0 ≤ (tickCore e st0 stIn dt o).1.player.chargeSpeed
    ∧ (∀ h ∈ (tickCore e st0 stIn dt o).1.hazards, h.damage = 1)
    ∧ (∀ pk ∈ (tickCore e st0 stIn dt o).1.pickups, 0 ≤ pk.value) := by
  simp only [tickCore]
  set st1 := if e.player.hp = 1 then addLowHpTime stIn dt else stIn with hst1
  have hst1ph : st1.phase = Phase.playing := by
    rw [hst1]
    split_ifs
    · rw [addLowHpTime_phase]; exact hph
    · exact hph
  set P := updatePlayer e.player dt e.config with hP
  have hup := updatePlayer_bounds e.player dt e.config hc0 hc1 hcs hdt
  set PK0 := if (decide (o.pickupRoll < 1 / 40 * st0.difficulty)) = true then
      e.pickups ++ [spawnPickup P.position.y e.config o.pickupTypeIdx
        o.pickupXRand o.pickupYRand (e.pickupIdCounter + 1)]
    else e.pickups with hPK0def
  have hPK0 : ∀ pk ∈ PK0, 0 ≤ pk.value := by
    rw [hPK0def]
    split_ifs
    · intro pk hm
      rcases List.mem_append.1 hm with hm | hm
      · exact hpk pk hm
      · rcases List.mem_singleton.1 hm with rfl
        exact spawnPickup_value _ _ _ _ _ _
    · exact hpk
  set SP := spawnHazards P.position.y e.config st0.difficulty e.lastSpawnY
    e.hazardIdCounter o.wallRoll o.phaseableRoll o.widthRand o.xRand with hSP
  have hHZ0 : ∀ h ∈ e.hazards ++ SP.hazards, h.damage = 1 := by
    intro h hm
    rcases List.mem_append.1 hm with hm | hm
    · exact hhaz h hm
    · exact spawnHazards_damage _ _ _ _ _ _ _ _ _ h hm
  have hPK1 := updatePickups_value PK0 P dt o.sqrtFn hPK0
  have hHZ1 := updateHazards_damage (e.hazards ++ SP.hazards) P dt o.sqrtFn hHZ0
  have hokP : HpOk P st1.phase := by
    refine ⟨?_, ?_, ?_, ?_⟩
    · rw [hup.2.2.1]; exact hhp0
    · rw [hup.2.2.1, hup.2.2.2.1]; exact hhp1
    · left; rw [hup.2.2.1]; exact hp1
    · intro _; rw [hup.2.2.1]; exact hp1
  have hpf := checkPickupCollisions_hpOk (updatePickups PK0 P dt o.sqrtFn) P st1 hPK1 hokP
  set PF := checkPickupCollisions (updatePickups PK0 P dt o.sqrtFn) P st1 with hPF
  have hho := checkHazardCollisions_hpOk
    (updateHazards (e.hazards ++ SP.hazards) P dt o.sqrtFn) PF.player PF.store.phase
    hHZ1 hpf.1
  set HO := checkHazardCollisions
    (updateHazards (e.hazards ++ SP.hazards) P dt o.sqrtFn) PF.player PF.store.phase
    with hHO
  have hchg0 : 0 ≤ HO.player.charge := by
    rw [hho.2.1, hpf.2.2.1]
    exact hup.1
  have hchg1 : HO.player.charge ≤ HO.player.maxCharge := by
    rw [hho.2.1, hho.2.2.1, hpf.2.2.1, hpf.2.2.2.1]
    exact hup.2.1
  have hcsp : 0 ≤ HO.player.chargeSpeed := by
    rw [hho.2.2.2.1, hpf.2.2.2.2.1]
    rw [hP]
    rw [hup.2.2.2.2.2]
    exact hcs
  have hfinphase :
      (addDistance (addPhaseThrough^[HO.result.phaseThroughs]
        (addNearMiss^[HO.result.nearMisses] { PF.store with phase := HO.phase }))
        (HO.player.velocity.y * dt)).phase = HO.phase := by
    show (addPhaseThrough^[HO.result.phaseThroughs]
        (addNearMiss^[HO.result.nearMisses] { PF.store with phase := HO.phase })).phase
      = HO.phase
    rw [iterate_phase addPhaseThrough addPhaseThrough_phase,
      iterate_phase addNearMiss addNearMiss_phase]
  refine ⟨hho.1.1, hho.1.2.1, hchg0, hchg1, ?_, hcsp, ?_, ?_⟩
  · intro hphase
    apply hho.1.2.2.2
    rw [← hfinphase]
    exact hphase
  · intro h hm
    have hm' := List.mem_filter.1 hm
    exact hho.2.2.2.2.2 h hm'.1
  · intro pk hm
    have hm' := List.mem_filter.1 hm
    exact hpf.2.2.2.2.2.2 pk hm'.1

/-- The per-tick invariant of the engine and store: the player's hp and
charge are within bounds, a playing-phase player has at least 1 hp, the
charge speed is non-negative, and the live entities are well-formed (every
hazard deals damage 1, every pickup value is non-negative) — all true of the
states the engine actually constructs. -/
def EngineInv (e : Engine) (st : Store) : Prop :=
  0 ≤ e.player.hp ∧ e.player.hp ≤ e.player.maxHp
  ∧ 0 ≤ e.player.charge ∧ e.player.charge ≤ e.player.maxCharge
  ∧ (st.phase = Phase.playing → 1 ≤ e.player.hp)
  ∧ 0 ≤ e.player.chargeSpeed
  ∧ (∀ h ∈ e.hazards, h.damage = 1)
  ∧ (∀ pk ∈ e.pickups, 0 ≤ pk.value)

/-- C8: a playing-phase `fixedUpdate` tick preserves
`0 ≤ hp ≤ maxHp` and `0 ≤ charge ≤ maxCharge`: they hold before (the
hypothesis) and after the tick, through `updatePlayer`'s charge clamp,
`damagePlayer`'s interaction with invincibility and the ended transition,
and the cell heal's `min maxHp` clamp. -/
theorem fixedUpdate_hp_charge_invariant (e : Engine) (st : Store) (dt : ℚ)
    (o : TickOracle) (hinv : EngineInv e st) (hph : st.phase = Phase.playing)
    (hdt : 0 ≤ dt) :
    EngineInv (fixedUpdate e st dt o).1 (fixedUpdate e st dt o).2
    ∧ 0 ≤ (fixedUpdate e st dt o).1.player.hp
    ∧ (fixedUpdate e st dt o).1.player.hp ≤ (fixedUpdate e st dt o).1.player.maxHp
    ∧ 0 ≤ (fixedUpdate e st dt o).1.player.charge
    ∧ (fixedUpdate e st dt o).1.player.charge
        ≤ (fixedUpdate e st dt o).1.player.maxCharge := by
  obtain ⟨h0, h1, h2, h3, h4, h5, h6, h7⟩ := hinv
  have hp1 : 1 ≤ e.player.hp := h4 hph
  simp only [fixedUpdate]
  split_ifs with ht hu
  · -- timer expired: phase flips to ended, the player is untouched
    refine ⟨⟨h0, h1, h2, h3, ?_, h5, h6, h7⟩, h0, h1, h2, h3⟩
    intro hc
    have : (endRun (setPhase st Phase.ended)).phase = Phase.ended := rfl
    rw [this] at hc
    exact absurd hc (by intro hcc; cases hcc)
  · -- upgrade sub-phase: gameplay paused, the player is untouched
    refine ⟨⟨h0, h1, h2, h3, ?_, h5, h6, h7⟩, h0, h1, h2, h3⟩
    intro hc
    have : (triggerUpgradeChoice (setDifficulty (setTimer st (st.timer - dt))
        (1 + (st.maxTime - (st.timer - dt)) / st.maxTime * 2)) o.upgradeChoices).phase
        = Phase.upgrade := rfl
    rw [this] at hc
    exact absurd hc (by intro hcc; cases hcc)
  · have hc := tickCore_inv e st
      (setDifficulty (setTimer st (st.timer - dt))
        (1 + (st.maxTime - (st.timer - dt)) / st.maxTime * 2)) dt o
      hph h0 h1 h2 h3 hp1 h5 hdt h6 h7
    exact ⟨⟨hc.1, hc.2.1, hc.2.2.1, hc.2.2.2.1, hc.2.2.2.2.1, hc.2.2.2.2.2.1,
      hc.2.2.2.2.2.2.1, hc.2.2.2.2.2.2.2⟩, hc.1, hc.2.1, hc.2.2.1, hc.2.2.2.1⟩

/-- A concrete oracle: no spawns, empty shuffle, zero square roots. -/
def oracle0 : TickOracle :=
  { pickupRoll := 0, pickupTypeIdx := 0, pickupXRand := 0, pickupYRand := 0
    wallRoll := 0, phaseableRoll := 0, widthRand := 0, xRand := 0
    upgradeChoices := [], sqrtFn := fun _ => 0 }

/-- Witness for C8: the invariant holds for the fresh engine/store pair at
run start, so the tick theorem applies and reproduces the bounds after one
16.67 ms tick. -/
theorem fixedUpdate_hp_charge_invariant_witness :
    0 ≤ (fixedUpdate engine0 store0 (1 / 60) oracle0).1.player.hp
    ∧ 0 ≤ (fixedUpdate engine0 store0 (1 / 60) oracle0).1.player.charge := by
  have h := fixedUpdate_hp_charge_invariant engine0 store0 (1 / 60) oracle0
    (by refine ⟨?_, ?_, ?_, ?_, ?_, ?_, ?_, ?_⟩ <;>
      norm_num [EngineInv, engine0, store0, createPlayer, DEFAULT_CONFIG])
    rfl (by norm_num)
  exact ⟨h.2.1, h.2.2.2.1⟩

end PulseForge
